import Mathlib

/-!
DelaySense-UI: the form / request / render state machine of `src/App.jsx`

A shallow embedding of the dashboard component: the two payload-preparation
functions of `MODEL_CONFIGS`, the React state of `App`, its event handlers
(`handleChange`, `handleSubmit`, `handleReset`, the model switcher) and the
result panel with `RiskBadge`.

The JavaScript built-ins the handlers call (`parseFloat`, `parseInt`,
truthiness, `ToString`, property reads) are embedded after ECMA-262.  A Number
is kept as an exact dyadic rational, so rounding to binary64 is computed and
not assumed.
-/

namespace DelaySense

/-! ## Numbers -/

/-- A JavaScript Number.  `fin neg num k` is the finite double `± num / 2^k`,
kept in lowest terms (`k = 0` or `num` odd); `fin true 0 0` is `-0`. -/
inductive JsNum
  | nan
  | inf (neg : Bool)
  | fin (neg : Bool) (num : Nat) (k : Nat)
  deriving DecidableEq, Repr

/-- Cancel common factors of two between `num` and `2^k`. -/
def reduceDyadic (num : Nat) : Nat → Nat × Nat
  | 0 => (num, 0)
  | k + 1 => if num % 2 = 0 then reduceDyadic (num / 2) k else (num, k + 1)

/-- Integer nearest to `a / b`, ties to the even one (`b > 0`). -/
def roundHalfEven (a b : Nat) : Nat :=
  let q := a / b
  let r := a % b
  if 2 * r < b then q
  else if b < 2 * r then q + 1
  else if q % 2 = 0 then q else q + 1

/-- Halve `n` until it is below two, counting the steps; `fuel` bounds them. -/
def log2Aux : Nat → Nat → Nat
  | 0, _ => 0
  | fuel + 1, n => if n < 2 then 0 else log2Aux fuel (n / 2) + 1

/-- Index of the highest set bit of `n` (`0` for `n < 2`). -/
def floorLog2 (n : Nat) : Nat := log2Aux n n

/-- The integer `floor (log2 (p / q))` for positive `p` and `q`. -/
def floorLog2Ratio (p q : Nat) : Int :=
  let d : Int := (floorLog2 p : Int) - (floorLog2 q : Int)
  let reaches : Bool :=
    if 0 ≤ d then decide (q * 2 ^ d.toNat ≤ p) else decide (q ≤ p * 2 ^ (-d).toNat)
  if reaches then d else d - 1

/-- The Number value of the non-negative rational `p / q` (`q > 0`) with sign
`neg`: round to the nearest binary64 value, ties to even, 53 significant bits,
least exponent `-1074`, and infinity from `2^1024` on. -/
def roundToDouble (neg : Bool) (p q : Nat) : JsNum :=
  if p = 0 then .fin neg 0 0
  else
    let e : Int := max (floorLog2Ratio p q - 52) (-1074)
    if 0 ≤ e then
      let v := roundHalfEven p (q * 2 ^ e.toNat) * 2 ^ e.toNat
      if 2 ^ 1024 ≤ v then .inf neg else .fin neg v 0
    else
      let sig := roundHalfEven (p * 2 ^ (-e).toNat) q
      let r := reduceDyadic sig (-e).toNat
      .fin neg r.1 r.2

/-! ## Scanning numeric strings -/

/-- WhiteSpace and LineTerminator code points (ECMA-262 StrWhiteSpaceChar). -/
def isStrWhiteSpaceChar (c : Char) : Bool :=
  let n := c.toNat
  n = 0x09 || n = 0x0A || n = 0x0B || n = 0x0C || n = 0x0D || n = 0x20 ||
  n = 0xA0 || n = 0x1680 || (0x2000 ≤ n && n ≤ 0x200A) || n = 0x2028 ||
  n = 0x2029 || n = 0x202F || n = 0x205F || n = 0x3000 || n = 0xFEFF

/-- Drop leading white space (TrimString, start). -/
def trimStart : List Char → List Char
  | [] => []
  | c :: cs => if isStrWhiteSpaceChar c then trimStart cs else c :: cs

/-- Value of a character as a digit of the given radix (letters stand for
10 to 35, in either case). -/
def digitVal (radix : Nat) (c : Char) : Option Nat :=
  let n := c.toNat
  let v : Option Nat :=
    if 48 ≤ n ∧ n ≤ 57 then some (n - 48)
    else if 97 ≤ n ∧ n ≤ 122 then some (n - 87)
    else if 65 ≤ n ∧ n ≤ 90 then some (n - 55)
    else none
  match v with
  | some d => if d < radix then some d else none
  | none => none

/-- Split off the longest prefix of digits of the radix: the digit values and
the rest of the input. -/
def takeDigits (radix : Nat) : List Char → List Nat × List Char
  | [] => ([], [])
  | c :: cs =>
    match digitVal radix c with
    | some d => let r := takeDigits radix cs; (d :: r.1, r.2)
    | none => ([], c :: cs)

/-- The natural number written by a list of digits, most significant first. -/
def digitsValue (radix : Nat) (ds : List Nat) : Nat :=
  ds.foldl (fun acc d => radix * acc + d) 0

/-- Split an optional leading sign off. -/
def takeSign : List Char → Bool × List Char
  | '-' :: cs => (true, cs)
  | '+' :: cs => (false, cs)
  | cs => (false, cs)

/-- Whether `parseInt` strips a `0x` or `0X` off: only for radix 0 or 16. -/
def hasHexPrefix (radix : Nat) : List Char → Bool
  | '0' :: x :: _ => (radix = 0 || radix = 16) && (x = 'x' || x = 'X')
  | _ => false

/-- ECMA-262 `parseInt(string, radix)` for an explicit radix. -/
def parseInt (string : String) (radix : Nat) : JsNum :=
  let s := takeSign (trimStart string.data)
  if radix ≠ 0 ∧ (radix < 2 ∨ 36 < radix) then .nan
  else
    let r := if radix = 0 then 10 else radix
    let hex : Bool := hasHexPrefix radix s.2
    let r := if hex then 16 else r
    let body := if hex then s.2.drop 2 else s.2
    let ds := (takeDigits r body).1
    if ds = [] then .nan else roundToDouble s.1 (digitsValue r ds) 1

/-- ECMA-262 `parseFloat(string)`: the longest prefix of the trimmed input
that is a StrDecimalLiteral, as a Number; `NaN` when there is none. -/
def parseFloat (string : String) : JsNum :=
  let s := takeSign (trimStart string.data)
  if "Infinity".data.isPrefixOf s.2 then .inf s.1
  else
    let ip := takeDigits 10 s.2
    let fp : List Nat × List Char := match ip.2 with
      | '.' :: cs => takeDigits 10 cs
      | cs => ([], cs)
    if ip.1 = [] ∧ fp.1 = [] then .nan
    else
      let ex : Int := match fp.2 with
        | c :: cs =>
          if c = 'e' ∨ c = 'E' then
            let es := takeSign cs
            let ed := (takeDigits 10 es.2).1
            if ed = [] then 0
            else if es.1 then -((digitsValue 10 ed : Nat) : Int) else ((digitsValue 10 ed : Nat) : Int)
          else 0
        | [] => 0
      let m := digitsValue 10 (ip.1 ++ fp.1)
      let scale : Int := ex - (fp.1.length : Int)
      if 0 ≤ scale then roundToDouble s.1 (m * 10 ^ scale.toNat) 1
      else roundToDouble s.1 m (10 ^ (-scale).toNat)

/-! ## Number to string -/

/-- Count the decimal digits of `n` (`0` has none); `fuel` bounds the steps. -/
def digitCountAux : Nat → Nat → Nat
  | 0, _ => 0
  | fuel + 1, n => if n = 0 then 0 else digitCountAux fuel (n / 10) + 1

/-- Least `j` from the given start with `2^k ≤ num * 10^(j+1)`: the zeros
between the decimal point and the first significant digit of `num / 2^k < 1`. -/
def leadingZerosAux (num k : Nat) : Nat → Nat → Nat
  | 0, j => j
  | fuel + 1, j => if 2 ^ k ≤ num * 10 ^ (j + 1) then j else leadingZerosAux num k fuel (j + 1)

/-- The integer `n` with `10^(n-1) ≤ num / 2^k < 10^n`, for `num > 0`. -/
def decimalExponent (num k : Nat) : Int :=
  if 2 ^ k ≤ num then ((digitCountAux (num / 2 ^ k) (num / 2 ^ k) : Nat) : Int)
  else -((leadingZerosAux num k k 0 : Nat) : Int)

/-- The Number value of `s * 10^x`. -/
def decimalToDouble (s : Nat) (x : Int) : JsNum :=
  if 0 ≤ x then roundToDouble false (s * 10 ^ x.toNat) 1
  else roundToDouble false s (10 ^ (-x).toNat)

/-- Digit strings of length `d` for the positive double `num / 2^k` with decimal
exponent `n`: the integers `s` next to `v / 10^(n-d)` whose value `s * 10^(n-d)`
rounds back to `v`, the nearest one (the even one on a tie).  Returns `s` and
the exponent `n`, moved up by one when `s` reaches `10^d`. -/
def digitsOfLength (num k : Nat) (n : Int) (d : Nat) : Option (Nat × Int) :=
  let x : Int := n - (d : Int)
  let P : Nat := if 0 ≤ x then num else num * 10 ^ (-x).toNat
  let Q : Nat := if 0 ≤ x then 2 ^ k * 10 ^ x.toNat else 2 ^ k
  let lo := P / Q
  let hi := lo + 1
  let ok (s : Nat) : Bool :=
    decide (10 ^ (d - 1) ≤ s) && decide (decimalToDouble s x = .fin false num k)
  let pick (s : Nat) : Option (Nat × Int) :=
    if s = 10 ^ d then some (10 ^ (d - 1), n + 1) else some (s, n)
  let dLo := P - lo * Q
  let dHi := hi * Q - P
  match ok lo, ok hi with
  | true, false => pick lo
  | false, true => pick hi
  | false, false => none
  | true, true =>
    if dLo < dHi then pick lo
    else if dHi < dLo then pick hi
    else if lo % 2 = 0 then pick lo else pick hi

/-- The shortest digit string for `num / 2^k`, searching lengths from `d` for
`fuel` steps. -/
def shortestDigits (num k : Nat) (n : Int) : Nat → Nat → Option (Nat × Int)
  | 0, _ => none
  | fuel + 1, d =>
    match digitsOfLength num k n d with
    | some r => some r
    | none => shortestDigits num k n fuel (d + 1)

/-- Lay out the digits `s` with decimal exponent `n` (Number::toString, steps
6 to 10). -/
def layoutDigits (s : Nat) (n : Int) : String :=
  let ds := (Nat.repr s).data
  let d : Int := (ds.length : Int)
  if d ≤ n ∧ n ≤ 21 then String.mk (ds ++ List.replicate (n - d).toNat '0')
  else if 0 < n ∧ n ≤ 21 then String.mk (ds.take n.toNat ++ '.' :: ds.drop n.toNat)
  else if -6 < n ∧ n ≤ 0 then String.mk ('0' :: '.' :: List.replicate (-n).toNat '0' ++ ds)
  else
    let e : Int := n - 1
    let ex : List Char := (if e < 0 then '-' else '+') :: (Nat.repr e.natAbs).data
    match ds with
    | [c] => String.mk (c :: 'e' :: ex)
    | c :: cs => String.mk (c :: '.' :: cs ++ 'e' :: ex)
    | [] => String.mk ('e' :: ex)

/-- ECMA-262 Number::toString, radix 10. -/
def JsNum.toJsString : JsNum → String
  | .nan => "NaN"
  | .inf false => "Infinity"
  | .inf true => "-Infinity"
  | .fin neg num k =>
    if num = 0 then "0"
    else
      let n := decimalExponent num k
      let body := match shortestDigits num k n 17 1 with
        | some r => layoutDigits r.1 r.2
        | none => layoutDigits (num * 10 ^ 17 / 2 ^ k) n
      if neg then "-" ++ body else body

/-! ## Values -/

/-- A JavaScript value as the component meets it: what `res.json()` decodes and
what payload preparation builds.  `undefined` is the `none` of `Option JsVal`. -/
inductive JsVal
  | null
  | bool (b : Bool)
  | num (n : JsNum)
  | str (s : String)
  | arr (items : List JsVal)
  | obj (fields : List (String × JsVal))
  deriving Repr

/-- Read key `k` of an object kept as a list of entries: the first entry with
that key (`none` is `undefined`). -/
def objGet {α : Type} : List (String × α) → String → Option α
  | [], _ => none
  | (k', v) :: rest, k => if k' = k then some v else objGet rest k

/-- Write key `k`: an existing key keeps its place and takes the new value, a
new key goes last (the object literal `{ ...o, k: v }`). -/
def objSet {α : Type} : List (String × α) → String → α → List (String × α)
  | [], k, v => [(k, v)]
  | (k', v') :: rest, k, v =>
    if k' = k then (k, v) :: rest else (k', v') :: objSet rest k v

/-- ToBoolean of a Number: `NaN`, `+0` and `-0` are falsy. -/
def JsNum.truthy : JsNum → Bool
  | .nan => false
  | .inf _ => true
  | .fin _ num _ => decide (num ≠ 0)

/-- ToBoolean. -/
def JsVal.truthy : JsVal → Bool
  | .null => false
  | .bool b => b
  | .num n => n.truthy
  | .str s => decide (s ≠ "")
  | .arr _ => true
  | .obj _ => true

/-- ToBoolean of a possibly undefined value. -/
def truthy : Option JsVal → Bool
  | none => false
  | some v => v.truthy

/-- Messages of the TypeErrors the engine itself raises; their wording differs
between engines. -/
structure Engine where
  /-- Reading a property of `null` or `undefined`: the base as printed, then the
  property name. -/
  nullRead : String → String → String
  /-- Converting an object with no callable `toString` or `valueOf` to a
  primitive. -/
  notPrimitive : String

/-- The messages of V8. -/
def v8 : Engine where
  nullRead := fun base k => "Cannot read properties of " ++ base ++ " (reading '" ++ k ++ "')"
  notPrimitive := "Cannot convert object to primitive value"

/-- The property read `v.k` for a key that no built-in prototype defines: an own
property of an object, `undefined` on any other value, a TypeError on `null`.
The error case carries the exception's message. -/
def getProp (eng : Engine) (v : JsVal) (k : String) : Except String (Option JsVal) :=
  match v with
  | .null => .error (eng.nullRead "null" k)
  | .obj fields => .ok (objGet fields k)
  | _ => .ok none

/-- Join strings with commas (Array.prototype.join). -/
def joinComma : List String → String
  | [] => ""
  | [s] => s
  | s :: rest => s ++ "," ++ joinComma rest

mutual
/-- ECMA-262 ToString.  A decoded object has no callable own property, so an own
`toString` key leaves no way to a primitive; an array joins its items, `null`
items as the empty string. -/
def JsVal.toJsString (eng : Engine) : JsVal → Except String String
  | .null => .ok "null"
  | .bool b => .ok (if b then "true" else "false")
  | .num n => .ok n.toJsString
  | .str s => .ok s
  | .arr items => (JsVal.itemsToJsString eng items).map joinComma
  | .obj fields =>
    match objGet fields "toString" with
    | some _ => .error eng.notPrimitive
    | none => .ok "[object Object]"
/-- ToString of each item of an array, for the join. -/
def JsVal.itemsToJsString (eng : Engine) : List JsVal → Except String (List String)
  | [] => .ok []
  | .null :: rest => (JsVal.itemsToJsString eng rest).map (fun r => "" :: r)
  | v :: rest =>
    match JsVal.toJsString eng v with
    | .error m => .error m
    | .ok s => (JsVal.itemsToJsString eng rest).map (fun r => s :: r)
end

/-! ## MODEL CONFIG -/

/-- The keys of `MODEL_CONFIGS`. -/
inductive ModelKey
  | aiddata
  | ieg
  deriving DecidableEq, Repr

/-- A value held in a form: `handleChange` stores the raw `value` string of an
input or the `checked` flag of a checkbox. -/
inductive FormVal
  | str (s : String)
  | bool (b : Bool)
  deriving DecidableEq, Repr

/-- A form object, field name to value. -/
abbrev FormState := List (String × FormVal)

/-- A form value as a JavaScript value. -/
def FormVal.toJs : FormVal → JsVal
  | .str s => .str s
  | .bool b => .bool b

/-- ToBoolean of a form field that may be absent. -/
def FormVal.truthy : Option FormVal → Bool
  | none => false
  | some (.str s) => decide (s ≠ "")
  | some (.bool b) => b

/-- ToString of a form value, as `parseFloat` and `parseInt` apply it to their
argument. -/
def FormVal.toJsString : FormVal → String
  | .str s => s
  | .bool b => if b then "true" else "false"

/-- The object spread `{ ...form }` as a payload object. -/
def spread (form : FormState) : List (String × JsVal) :=
  form.map (fun e => (e.1, e.2.toJs))

def initialAidForm : FormState :=
  [("donor", .str ""), ("recipient", .str ""), ("recipient_region", .str ""),
   ("coalesced_purpose_name", .str ""), ("flow_name", .str ""),
   ("commitment_amount_usd_constant", .str ""), ("total_project_cost", .str ""),
   ("start_date", .str ""), ("commitment_date", .str ""),
   ("proposed_end_date", .str ""), ("implementing_agency", .str ""),
   ("financing_agency", .str ""), ("title", .str ""),
   ("is_multi_country", .bool false)]

def initialIegForm : FormState :=
  [("wb_region", .str ""), ("practice_group", .str ""), ("global_practice", .str ""),
   ("agreement_type", .str ""), ("lending_instrument_type", .str ""),
   ("country_lending_group", .str ""), ("implementing_agency", .str ""),
   ("project_name", .str ""), ("quality_at_entry", .str ""),
   ("quality_of_supervision", .str ""), ("bank_performance", .str ""),
   ("me_quality", .str ""), ("approval_fy", .str ""),
   ("is_multi_country", .bool false)]

/-- `MODEL_CONFIGS.aiddata.preparePayload`. -/
def preparePayloadAiddata (form : FormState) : List (String × JsVal) :=
  let amount := objGet form "commitment_amount_usd_constant"
  let cost := objGet form "total_project_cost"
  let withAmount := objSet (spread form) "commitment_amount_usd_constant"
    (.num (parseFloat
      (match FormVal.truthy amount, amount with
       | true, some v => v.toJsString
       | _, _ => "0")))
  objSet withAmount "total_project_cost"
    (match FormVal.truthy cost, cost with
     | true, some v => .num (parseFloat v.toJsString)
     | _, _ => .null)

/-- `MODEL_CONFIGS.ieg.preparePayload`. -/
def preparePayloadIeg (form : FormState) : List (String × JsVal) :=
  let fy := objGet form "approval_fy"
  objSet (spread form) "approval_fy"
    (match FormVal.truthy fy, fy with
     | true, some v => .num (parseInt v.toJsString 10)
     | _, _ => .null)

/-- `MODEL_CONFIGS[key].preparePayload`. -/
def preparePayload : ModelKey → FormState → List (String × JsVal)
  | .aiddata => preparePayloadAiddata
  | .ieg => preparePayloadIeg

/-- `MODEL_CONFIGS[key].initialForm`. -/
def initialForm : ModelKey → FormState
  | .aiddata => initialAidForm
  | .ieg => initialIegForm

/-- `MODEL_CONFIGS[key].apiBase`, over the configured `API_BASE_URL`. -/
def apiBase (apiBaseUrl : String) : ModelKey → String
  | .aiddata => apiBaseUrl ++ "/predict/aiddata"
  | .ieg => apiBaseUrl ++ "/predict/ieg"

/-! ## APP state -/

/-- An object with the two keys `aiddata` and `ieg`. -/
structure PerModel (α : Type) where
  aiddata : α
  ieg : α
  deriving DecidableEq, Repr

/-- The read `o[key]`. -/
def PerModel.get {α : Type} (o : PerModel α) : ModelKey → α
  | .aiddata => o.aiddata
  | .ieg => o.ieg

/-- The update `{ ...prev, [key]: v }`. -/
def PerModel.set {α : Type} (prev : PerModel α) (key : ModelKey) (v : α) : PerModel α :=
  match key with
  | .aiddata => { prev with aiddata := v }
  | .ieg => { prev with ieg := v }

/-- The five state cells of `App`.  An error is `null` (`none`) or a message. -/
structure AppState where
  activeModelKey : ModelKey
  forms : PerModel FormState
  predictions : PerModel JsVal
  errors : PerModel (Option String)
  loadingModel : Option ModelKey

/-- The state `App` mounts with. -/
def AppState.initial : AppState where
  activeModelKey := .aiddata
  forms := ⟨initialForm .aiddata, initialForm .ieg⟩
  predictions := ⟨.null, .null⟩
  errors := ⟨none, none⟩
  loadingModel := none

/-- The `loading` flag of a render: `loadingModel === activeModelKey`. -/
def AppState.loading (s : AppState) : Bool :=
  decide (s.loadingModel = some s.activeModelKey)

/-- The target of a change event. -/
structure ChangeTarget where
  name : String
  value : String
  type : String
  checked : Bool

/-- `handleChange`. -/
def handleChange (s : AppState) (e : ChangeTarget) : AppState :=
  let v : FormVal := if e.type = "checkbox" then .bool e.checked else .str e.value
  let form := objSet (s.forms.get s.activeModelKey) e.name v
  { s with forms := s.forms.set s.activeModelKey form }

/-- `handleReset`. -/
def handleReset (s : AppState) : AppState :=
  { s with
    forms := s.forms.set s.activeModelKey (initialForm s.activeModelKey)
    predictions := s.predictions.set s.activeModelKey .null
    errors := s.errors.set s.activeModelKey none }

/-- The model switcher: `setActiveModelKey(key)`. -/
def setActiveModelKey (s : AppState) (key : ModelKey) : AppState :=
  { s with activeModelKey := key }

/-! ## handleSubmit -/

/-- The `fetch` call of one submission; `payload` is the object handed to
`JSON.stringify` for the body. -/
structure Request where
  url : String
  method : String
  contentType : String
  payload : List (String × JsVal)

/-- A `handleSubmit` call suspended at `await fetch(...)`: the model key its
closure captured and the request it sent. -/
structure Pending where
  key : ModelKey
  request : Request

/-- What the transport does with a request: the `fetch` promise rejects with an
error of the given message, or it resolves to a response with a status whose
`json()` yields a decoded value or rejects with an error of the given message. -/
inductive FetchOutcome
  | rejected (message : String)
  | response (status : Nat) (body : Except String JsVal)

/-- The getter `res.ok`. -/
def resOk (status : Nat) : Bool := decide (200 ≤ status ∧ status ≤ 299)

/-- The part of `handleSubmit` up to `await fetch(...)`. -/
def handleSubmitStart (apiBaseUrl : String) (s : AppState) : AppState × Pending :=
  let key := s.activeModelKey
  ({ s with
     loadingModel := some key
     errors := s.errors.set key none
     predictions := s.predictions.set key .null },
   { key := key
     request :=
      { url := apiBase apiBaseUrl key
        method := "POST"
        contentType := "application/json"
        payload := preparePayload key (s.forms.get key) } })

/-- The value of `data.error || "HTTP " + res.status` made into the message of
`new Error(...)`. -/
def errorMessage (eng : Engine) (data : JsVal) (status : Nat) : Except String String := do
  let e ← getProp eng data "error"
  match truthy e, e with
  | true, some v => v.toJsString eng
  | _, _ => pure ("HTTP " ++ Nat.repr status)

/-- The `try` block from `await res.json()` on: the decoded body when it goes
through, the message of the thrown error otherwise. -/
def checkResponse (eng : Engine) (status : Nat) (data : JsVal) : Except String JsVal :=
  if !resOk status then
    match errorMessage eng data status with
    | .ok m => .error m
    | .error m => .error m
  else
    match getProp eng data "error" with
    | .error m => .error m
    | .ok e =>
      if truthy e then
        match errorMessage eng data status with
        | .ok m => .error m
        | .error m => .error m
      else .ok data

/-- The `try` block after `await fetch(...)` for each outcome. -/
def tryBlock (eng : Engine) : FetchOutcome → Except String JsVal
  | .rejected message => .error message
  | .response _ (.error message) => .error message
  | .response status (.ok data) => checkResponse eng status data

/-- The rest of `handleSubmit` once the transport has settled, run on the state
of that moment: `setPredictions` or the `catch` clause, then `finally`. -/
def handleSubmitSettle (eng : Engine) (p : Pending) (o : FetchOutcome) (s : AppState) :
    AppState :=
  match tryBlock eng o with
  | .ok data =>
    { s with predictions := s.predictions.set p.key data, loadingModel := none }
  | .error message =>
    { s with
      errors := s.errors.set p.key
        (some (if message ≠ "" then message else "Something went wrong"))
      loadingModel := none }

/-- One submission with nothing else happening before it settles. -/
def handleSubmit (eng : Engine) (apiBaseUrl : String) (s : AppState) (o : FetchOutcome) :
    AppState :=
  let r := handleSubmitStart apiBaseUrl s
  handleSubmitSettle eng r.2 o r.1

/-! ## Rendering the result panel -/

/-- Rendered markup.  Of the inline styles only those that depend on a value are
kept (the background and text colour of a badge). -/
inductive Html
  | text (s : String)
  | el (tag : String) (style : List (String × String)) (children : List Html)
  deriving Repr

/-- How a render fails: an exception with a message, or React refusing an
object as a child. -/
inductive RenderError
  | thrown (message : String)
  | invalidChild
  deriving DecidableEq, Repr

mutual
/-- A value placed as a JSX child: strings and numbers become text, `null` and
booleans render nothing, an array renders its items, an object is refused. -/
def renderValue : JsVal → Except RenderError (List Html)
  | .null => .ok []
  | .bool _ => .ok []
  | .num n => .ok [.text n.toJsString]
  | .str s => .ok [.text s]
  | .arr items => renderItems items
  | .obj _ => .error .invalidChild
/-- The items of an array child, in order. -/
def renderItems : List JsVal → Except RenderError (List Html)
  | [] => .ok []
  | v :: rest =>
    match renderValue v with
    | .error e => .error e
    | .ok h =>
      match renderItems rest with
      | .error e => .error e
      | .ok hs => .ok (h ++ hs)
end

/-- A possibly undefined value placed as a JSX child. -/
def renderChild : Option JsVal → Except RenderError (List Html)
  | none => .ok []
  | some v => renderValue v

/-- An entry of the `colors` table of `RiskBadge`; a member that the read
`colors[value]` finds on `Object.prototype` has neither field. -/
structure BadgeColors where
  bg : Option String
  text : Option String
  deriving DecidableEq, Repr

/-- The own entries of `colors`. -/
def colors : List (String × BadgeColors) :=
  [("early", ⟨some "#d1fae5", some "#065f46"⟩),
   ("on_time", ⟨some "#dbeafe", some "#1e40af"⟩),
   ("delayed", ⟨some "#fef9c3", some "#92400e"⟩),
   ("significantly_delayed", ⟨some "#fee2e2", some "#991b1b"⟩)]

/-- The property names every object inherits from `Object.prototype`; each
holds a function or an object, so it is truthy. -/
def objectPrototypeKeys : List String :=
  ["constructor", "__defineGetter__", "__defineSetter__", "hasOwnProperty",
   "__lookupGetter__", "__lookupSetter__", "isPrototypeOf", "propertyIsEnumerable",
   "toString", "valueOf", "__proto__", "toLocaleString"]

/-- The property key a value is converted to (`undefined` reads as the key
"undefined"). -/
def toPropertyKey (eng : Engine) : Option JsVal → Except String String
  | none => .ok "undefined"
  | some v => v.toJsString eng

/-- The lookup `colors[value] || colors["on_time"]`. -/
def badgeColors (eng : Engine) (value : Option JsVal) : Except String BadgeColors :=
  match toPropertyKey eng value with
  | .error m => .error m
  | .ok key =>
    match objGet colors key with
    | some c => .ok c
    | none =>
      if key ∈ objectPrototypeKeys then .ok ⟨none, none⟩
      else .ok ⟨some "#dbeafe", some "#1e40af"⟩

/-- The style entries that are defined. -/
def styleOf (c : BadgeColors) : List (String × String) :=
  (match c.bg with | some b => [("background", b)] | none => []) ++
  (match c.text with | some t => [("color", t)] | none => [])

/-- The component `RiskBadge`. -/
def RiskBadge (eng : Engine) (label : String) (value : Option JsVal) :
    Except RenderError Html :=
  match badgeColors eng value with
  | .error m => .error (.thrown m)
  | .ok c =>
    match renderChild value with
    | .error e => .error e
    | .ok shown =>
      .ok (.el "div" [] [.el "span" (styleOf c) (.text label :: .text ": " :: shown)])

/-- A property read inside a render. -/
def readProp (eng : Engine) (v : Option JsVal) (k : String) : Except RenderError (Option JsVal) :=
  match v with
  | none => .error (.thrown (eng.nullRead "undefined" k))
  | some w =>
    match getProp eng w k with
    | .error m => .error (.thrown m)
    | .ok r => .ok r

/-- The prompt shown for `!prediction`. -/
def placeholder : Html :=
  .el "p" []
    [.text "Fill in the project details on the left and click", .text " ",
     .el "strong" [] [.text "\"Predict end date & risk\""],
     .text " to see the model's expected completion date and risk classification."]

/-- The advice block that closes the result view. -/
def guidance : Html :=
  .el "div" []
    [.el "h3" [] [.text "How to use this for decision-making"],
     .el "ul" []
      [.el "li" [] [.text "Compare the predicted completion date to the contractual end date to estimate buffer months."],
       .el "li" [] [.text "For high-risk regions (e.g. small island states, African regional programs) consider additional supervision missions or contingency planning."],
       .el "li" [] [.text "Combine this prediction with your per-donor / per-sector delay tables to prioritize where portfolio management attention is most needed."]]]

/-- The element built for a truthy `prediction`. -/
def resultView (eng : Engine) (prediction : JsVal) : Except RenderError Html := do
  let date ← readProp eng (some prediction) "predicted_end_date"
  let residual ← readProp eng (some prediction) "residual_estimate"
  let cls ← readProp eng (some prediction) "delay_classification"
  let zscore ← readProp eng cls "zscore"
  let cls ← readProp eng (some prediction) "delay_classification"
  let percentile ← readProp eng cls "percentile"
  let cls ← readProp eng (some prediction) "delay_classification"
  let iqr ← readProp eng cls "iqr"
  let dateShown ← renderChild date
  let residualShown ← renderChild residual
  let b1 ← RiskBadge eng "Z-score" zscore
  let b2 ← RiskBadge eng "Percentile" percentile
  let b3 ← RiskBadge eng "IQR" iqr
  pure (.el "div" []
    [.el "div" []
      [.el "div" [] [.text "Predicted completion date"],
       .el "div" [] dateShown],
     .el "div" []
      [.el "div" [] [.text "Schedule tightness vs model"],
       .el "div" []
        [.text "Model expects completion around", .text " ",
         .el "strong" [] dateShown,
         .text ". Your proposed end date implies a schedule residual of", .text " ",
         .el "strong" [] (residualShown ++ [.text " days"]),
         .text " ", .text "(proposed − model)."],
       .el "div" [] [.text "Delay risk classifications:"],
       b1, b2, b3],
     guidance])

/-- The two conditional children of the result section:
`{!prediction && <p>…</p>}` and `{prediction && <div>…</div>}`. -/
def resultPanel (eng : Engine) (prediction : JsVal) : Except RenderError (List Html) :=
  if prediction.truthy then
    match resultView eng prediction with
    | .error e => .error e
    | .ok view => .ok [view]
  else
    match renderValue prediction with
    | .error e => .error e
    | .ok shown => .ok (placeholder :: shown)

mutual
/-- The text of a node and all its descendants. -/
def Html.textContent : Html → String
  | .text s => s
  | .el _ _ children => Html.textContentAll children
/-- The text of a list of nodes. -/
def Html.textContentAll : List Html → String
  | [] => ""
  | h :: rest => Html.textContent h ++ Html.textContentAll rest
end

mutual
/-- The text of every element with the given tag, in document order. -/
def Html.textsOf (tag : String) : Html → List String
  | .text _ => []
  | .el t _ children =>
    (if t = tag then [Html.textContentAll children] else []) ++ Html.textsOfAll tag children
/-- The same over a list of nodes. -/
def Html.textsOfAll (tag : String) : List Html → List String
  | [] => []
  | h :: rest => Html.textsOf tag h ++ Html.textsOfAll tag rest
end

/-- The response body of the worked example. -/
def exampleBody : JsVal :=
  .obj [("predicted_end_date", .str "2026-01-01"),
        ("residual_estimate", .num (.fin true 15 0)),
        ("delay_classification",
          .obj [("zscore", .str "delayed"), ("percentile", .str "on_time"),
                ("iqr", .str "delayed")])]

/-! ## The request body -/

/-- The JSON value `JSON.stringify` writes for a Number: `NaN` and the
infinities are written as `null`, `-0` as `0`. -/
def JsNum.toJson : JsNum → JsVal
  | .nan => .null
  | .inf _ => .null
  | .fin neg num k => if num = 0 then .num (.fin false 0 0) else .num (.fin neg num k)

mutual
/-- The JSON value that the text `JSON.stringify(v)` denotes. -/
def JsVal.toJson : JsVal → JsVal
  | .null => .null
  | .bool b => .bool b
  | .num n => n.toJson
  | .str s => .str s
  | .arr items => .arr (JsVal.toJsonItems items)
  | .obj fields => .obj (JsVal.toJsonFields fields)
/-- The items of an array, each as written. -/
def JsVal.toJsonItems : List JsVal → List JsVal
  | [] => []
  | v :: rest => JsVal.toJson v :: JsVal.toJsonItems rest
/-- The entries of an object, each value as written. -/
def JsVal.toJsonFields : List (String × JsVal) → List (String × JsVal)
  | [] => []
  | (k, v) :: rest => (k, JsVal.toJson v) :: JsVal.toJsonFields rest
end

/-- The object a server decodes from the `body` of the request. -/
def Request.body (r : Request) : List (String × JsVal) :=
  JsVal.toJsonFields r.payload

/-! ## The event loop -/

/-- The component between two events: its state cells and the `handleSubmit`
calls still suspended at their `await`, oldest first. -/
structure Sys where
  app : AppState
  pending : List Pending

/-- The freshly mounted component. -/
def Sys.initial : Sys := ⟨AppState.initial, []⟩

/-- What can happen next: a user event on the rendered page, or the transport
settling the suspended call at position `i`. -/
inductive Event
  | change (e : ChangeTarget)
  | select (key : ModelKey)
  | submit
  | reset
  | settle (i : Nat) (o : FetchOutcome)

/-- When a submission can be triggered. -/
abbrev SubmitGuard := Sys → Bool

/-- No guard: `handleSubmit` may be called at any time. -/
def anyTime : SubmitGuard := fun _ => true

/-- The submit control of the page: `disabled={loading}`. -/
def controlEnabled : SubmitGuard := fun σ => !σ.app.loading

/-- The submit control is enabled and no request of the other variant is
unsettled. -/
def controlEnabledOneVariant : SubmitGuard := fun σ =>
  !σ.app.loading && σ.pending.all (fun p => decide (p.key = σ.app.activeModelKey))

/-- No request at all is unsettled. -/
def noneUnsettled : SubmitGuard := fun σ => σ.pending.isEmpty

/-- One event; `none` when it cannot happen (the guard forbids the submission,
or no suspended call has that position). -/
def step (guard : SubmitGuard) (eng : Engine) (apiBaseUrl : String) (σ : Sys) :
    Event → Option Sys
  | .change e => some { σ with app := handleChange σ.app e }
  | .select key => some { σ with app := setActiveModelKey σ.app key }
  | .reset => some { σ with app := handleReset σ.app }
  | .submit =>
    if guard σ then
      some ⟨(handleSubmitStart apiBaseUrl σ.app).1,
            σ.pending ++ [(handleSubmitStart apiBaseUrl σ.app).2]⟩
    else none
  | .settle i o =>
    match σ.pending[i]? with
    | some p => some ⟨handleSubmitSettle eng p o σ.app, σ.pending.eraseIdx i⟩
    | none => none

/-- A sequence of events from a state. -/
def run (guard : SubmitGuard) (eng : Engine) (apiBaseUrl : String) :
    List Event → Sys → Option Sys
  | [], σ => some σ
  | ev :: rest, σ =>
    match step guard eng apiBaseUrl σ ev with
    | some next => run guard eng apiBaseUrl rest next
    | none => none

/-- The number of unsettled requests submitted for a variant. -/
def unsettled (σ : Sys) (key : ModelKey) : Nat :=
  (σ.pending.filter (fun p => decide (p.key = key))).length

/-- At most one request is unsettled, and the in-flight marker names its
variant when there is one and is null when there is none. -/
def atMostOneMarked (σ : Sys) : Bool :=
  match σ.pending with
  | [] => σ.app.loadingModel.isNone
  | [p] => decide (σ.app.loadingModel = some p.key)
  | _ => false

/-- Whether an event keeps the submissions of a variant apart: a submission or a
reset needs the active variant to have no unsettled request. -/
def keepsApart (σ : Sys) : Event → Bool
  | .submit => decide (unsettled σ σ.app.activeModelKey = 0)
  | .reset => decide (unsettled σ σ.app.activeModelKey = 0)
  | _ => true

/-- Whether a run keeps the submissions of a variant apart: every submission
and every reset happens when the active variant has no unsettled request. -/
def respectsOrder (eng : Engine) (apiBaseUrl : String) : List Event → Sys → Bool
  | [], _ => true
  | ev :: rest, σ =>
    keepsApart σ ev &&
    (match step anyTime eng apiBaseUrl σ ev with
     | some next => respectsOrder eng apiBaseUrl rest next
     | none => true)

/-- The state of one variant between events when its submissions are kept
apart: at most one request unsettled, result and error both null while it is,
and never both set. -/
def Exclusive (σ : Sys) (key : ModelKey) : Prop :=
  unsettled σ key ≤ 1 ∧
  (0 < unsettled σ key →
    σ.app.predictions.get key = .null ∧ σ.app.errors.get key = none) ∧
  (σ.app.predictions.get key = .null ∨ σ.app.errors.get key = none)

/-! ## The rendered page -/

/-- The `Field` inputs the form section renders for each variant: the `name`
and the `type` of each (`type` defaults to "text").  The page has no other
input; its only checkbox is commented out. -/
def renderedFields : ModelKey → List (String × String)
  | .aiddata =>
    [("donor", "text"), ("recipient", "text"), ("recipient_region", "text"),
     ("coalesced_purpose_name", "text"), ("flow_name", "text"),
     ("commitment_amount_usd_constant", "number"), ("total_project_cost", "number"),
     ("start_date", "date"), ("proposed_end_date", "date"), ("commitment_date", "date"),
     ("implementing_agency", "text"), ("financing_agency", "text"), ("title", "text")]
  | .ieg =>
    [("wb_region", "text"), ("practice_group", "text"), ("global_practice", "text"),
     ("agreement_type", "text"), ("lending_instrument_type", "text"),
     ("country_lending_group", "text"), ("implementing_agency", "text"),
     ("quality_at_entry", "text"), ("quality_of_supervision", "text"),
     ("bank_performance", "text"), ("me_quality", "text"), ("approval_fy", "number"),
     ("project_name", "text")]

/-- Whether the rendered page can raise the event: a change event comes from
one of the inputs rendered for the active variant. -/
def raisedByPage (σ : Sys) : Event → Bool
  | .change e => decide ((e.name, e.type) ∈ renderedFields σ.app.activeModelKey)
  | _ => true

/-- Whether every event of a run is one the rendered page can raise, with the
submit control as the only trigger of a submission. -/
def pageRun (eng : Engine) (apiBaseUrl : String) : List Event → Sys → Bool
  | [], _ => true
  | ev :: rest, σ =>
    raisedByPage σ ev &&
    (match step controlEnabled eng apiBaseUrl σ ev with
     | some next => pageRun eng apiBaseUrl rest next
     | none => true)

/-- The forms the page can hold: a boolean is stored only under
is_multi_country, and it is false. -/
def OnlyFlagIsBoolean (form : FormState) : Prop :=
  ∀ k b, objGet form k = some (.bool b) → k = "is_multi_country" ∧ b = false

/-- The code points ECMA-262 lists as WhiteSpace and LineTerminator: tab, line
feed, vertical tab, form feed, carriage return, space, no-break space, ogham
space mark, en quad to hair space, line and paragraph separator, narrow no-break
space, medium mathematical space, ideographic space, byte order mark. -/
def whiteSpaceChars : List Char :=
  [Char.ofNat 0x09, Char.ofNat 0x0A, Char.ofNat 0x0B, Char.ofNat 0x0C, Char.ofNat 0x0D,
   Char.ofNat 0x20, Char.ofNat 0xA0, Char.ofNat 0x1680, Char.ofNat 0x2000,
   Char.ofNat 0x2001, Char.ofNat 0x2002, Char.ofNat 0x2003, Char.ofNat 0x2004,
   Char.ofNat 0x2005, Char.ofNat 0x2006, Char.ofNat 0x2007, Char.ofNat 0x2008,
   Char.ofNat 0x2009, Char.ofNat 0x200A, Char.ofNat 0x2028, Char.ofNat 0x2029,
   Char.ofNat 0x202F, Char.ofNat 0x205F, Char.ofNat 0x3000, Char.ofNat 0xFEFF]

/-- Three submissions through the page's own controls, two of them on aiddata
before anything settles: submit on aiddata, switch to ieg, submit, switch back,
submit again (the control is enabled, the marker names ieg). -/
def overlappingSubmits : List Event :=
  [.submit, .select .ieg, .submit, .select .aiddata, .submit]

/-- The ten decimal digit characters. -/
def decimalDigitChars : List Char := ['0', '1', '2', '3', '4', '5', '6', '7', '8', '9']

/-! ## Sample states and bodies -/

/-- A failing response that also carries the three result fields. -/
def exampleBodyWithError : JsVal :=
  .obj [("predicted_end_date", .str "2026-01-01"),
        ("residual_estimate", .num (.fin true 15 0)),
        ("delay_classification",
          .obj [("zscore", .str "delayed"), ("percentile", .str "on_time"),
                ("iqr", .str "delayed")]),
        ("error", .str "model unavailable")]

/-- A state in which both variants hold a result and an error. -/
def busyState : AppState where
  activeModelKey := .ieg
  forms := ⟨initialAidForm, objSet initialIegForm "approval_fy" (.str "2020")⟩
  predictions := ⟨exampleBody, exampleBody⟩
  errors := ⟨some "HTTP 500", some "model unavailable"⟩
  loadingModel := some .aiddata

/-! ## Decimal numerals -/

/-- The character of a decimal digit. -/
def digitChar (d : Nat) : Char := Char.ofNat (48 + d)

/-- The string that writes the digits `ds`, most significant first; it denotes
the number `Nat.ofDigits 10 ds.reverse`. -/
def decimalString (ds : List Nat) : String := String.mk (ds.map digitChar)

/-! ## Rounding integers -/

theorem log2Aux_bounds (fuel : Nat) : ∀ n : Nat, n ≤ fuel → 0 < n →
    2 ^ log2Aux fuel n ≤ n ∧ n < 2 ^ (log2Aux fuel n + 1) := by
  induction fuel with
  | zero => intro n h1 h2; omega
  | succ fuel ih =>
    intro n h1 h2
    unfold log2Aux
    by_cases h : n < 2
    · simp only [h, if_true]
      constructor <;> simp <;> omega
    · simp only [h, if_false]
      have ih' := ih (n / 2) (by omega) (by omega)
      obtain ⟨a, b⟩ := ih'
      rw [pow_succ, pow_succ (n := log2Aux fuel (n / 2) + 1)]
      constructor <;> omega

theorem floorLog2_bounds (n : Nat) (h : 0 < n) :
    2 ^ floorLog2 n ≤ n ∧ n < 2 ^ (floorLog2 n + 1) :=
  log2Aux_bounds n n (Nat.le_refl n) h

theorem reduceDyadic_mul_pow (n : Nat) : ∀ j : Nat, reduceDyadic (n * 2 ^ j) j = (n, 0) := by
  intro j
  induction j with
  | zero => simp [reduceDyadic]
  | succ j ih =>
    have h1 : n * 2 ^ (j + 1) % 2 = 0 := by
      rw [pow_succ, ← Nat.mul_assoc]; exact Nat.mul_mod_left _ _
    have h2 : n * 2 ^ (j + 1) / 2 = n * 2 ^ j := by
      rw [pow_succ, ← Nat.mul_assoc]; exact Nat.mul_div_cancel _ (by decide)
    simp only [reduceDyadic, h1, if_true, h2, ih]

theorem roundHalfEven_one (a : Nat) : roundHalfEven a 1 = a := by
  simp [roundHalfEven, Nat.mod_one]

theorem floorLog2Ratio_one (n : Nat) (h : 0 < n) : floorLog2Ratio n 1 = (floorLog2 n : Int) := by
  have h1 : floorLog2 1 = 0 := by decide
  have hb := (floorLog2_bounds n h).1
  unfold floorLog2Ratio
  simp [h1, hb]

theorem roundToDouble_exact (neg : Bool) (n : Nat) (h : n < 2 ^ 53) :
    roundToDouble neg n 1 = .fin neg n 0 := by
  by_cases h0 : n = 0
  · subst h0; simp [roundToDouble]
  · have hpos : 0 < n := Nat.pos_of_ne_zero h0
    have hb := floorLog2_bounds n hpos
    have hL : floorLog2 n ≤ 52 := by
      by_contra hc
      have : 2 ^ 53 ≤ 2 ^ floorLog2 n := Nat.pow_le_pow_right (by decide) (by omega)
      omega
    unfold roundToDouble
    rw [floorLog2Ratio_one n hpos]
    simp only [h0, if_false]
    by_cases h52 : floorLog2 n = 52
    · have he : max ((floorLog2 n : Int) - 52) (-1074) = 0 := by rw [h52]; decide
      simp only [he]
      have hbig : ¬ (2 ^ 1024 ≤ n) := by
        have hle : (2:Nat) ^ 53 ≤ 2 ^ 1024 := Nat.pow_le_pow_right (by decide) (by decide)
        intro hc
        exact Nat.lt_irrefl _ (Nat.lt_of_lt_of_le (Nat.lt_of_lt_of_le h hle) hc)
      simp [roundHalfEven_one, hbig]
    · have hlt : floorLog2 n < 52 := by omega
      have he : max ((floorLog2 n : Int) - 52) (-1074) = (floorLog2 n : Int) - 52 := by
        apply max_eq_left; omega
      have hneg : ¬ (0 ≤ (floorLog2 n : Int) - 52) := by omega
      have hj : (-((floorLog2 n : Int) - 52)).toNat = 52 - floorLog2 n := by omega
      simp only [he, hneg, if_false, hj, roundHalfEven_one, reduceDyadic_mul_pow]

/-! ## Objects: reads after writes -/

theorem objGet_objSet_same {α : Type} (o : List (String × α)) (k : String) (v : α) :
    objGet (objSet o k v) k = some v := by
  induction o with
  | nil => simp [objSet, objGet]
  | cons e rest ih =>
    obtain ⟨k', v'⟩ := e
    by_cases h : k' = k
    · simp [objSet, objGet, h]
    · simp [objSet, objGet, h, ih]

theorem objGet_objSet_ne {α : Type} (o : List (String × α)) (k j : String) (v : α)
    (h : j ≠ k) : objGet (objSet o k v) j = objGet o j := by
  induction o with
  | nil => simp [objSet, objGet, Ne.symm h]
  | cons e rest ih =>
    obtain ⟨k', v'⟩ := e
    by_cases hk : k' = k
    · subst hk
      simp [objSet, objGet, Ne.symm h]
    · by_cases hj : k' = j
      · subst hj
        simp [objSet, objGet, hk]
      · simp [objSet, objGet, hk, hj, ih]

theorem objGet_spread (form : FormState) (k : String) :
    objGet (spread form) k = (objGet form k).map FormVal.toJs := by
  induction form with
  | nil => rfl
  | cons e rest ih =>
    obtain ⟨k', v'⟩ := e
    by_cases h : k' = k
    · simp [spread, objGet, h]
    · have ih' : objGet (List.map (fun e => (e.1, e.2.toJs)) rest) k
          = (objGet rest k).map FormVal.toJs := ih
      simp [spread, objGet, h, ih']

theorem PerModel.get_set_same {α : Type} (o : PerModel α) (key : ModelKey) (v : α) :
    (o.set key v).get key = v := by
  cases key <;> rfl

theorem PerModel.get_set_ne {α : Type} (o : PerModel α) (key other : ModelKey) (v : α)
    (h : other ≠ key) : (o.set key v).get other = o.get other := by
  cases key <;> cases other <;> first | rfl | exact absurd rfl h

/-! ## Payload preparation -/

theorem aiddata_amount (form : FormState) :
    objGet (preparePayload .aiddata form) "commitment_amount_usd_constant"
      = some (.num (parseFloat
          (match FormVal.truthy (objGet form "commitment_amount_usd_constant"),
                 objGet form "commitment_amount_usd_constant" with
           | true, some v => v.toJsString
           | _, _ => "0"))) := by
  show objGet (preparePayloadAiddata form) _ = _
  unfold preparePayloadAiddata
  rw [objGet_objSet_ne _ _ _ _ (by decide), objGet_objSet_same]

theorem aiddata_cost (form : FormState) :
    objGet (preparePayload .aiddata form) "total_project_cost"
      = some (match FormVal.truthy (objGet form "total_project_cost"),
                    objGet form "total_project_cost" with
              | true, some v => .num (parseFloat v.toJsString)
              | _, _ => .null) := by
  show objGet (preparePayloadAiddata form) _ = _
  unfold preparePayloadAiddata
  rw [objGet_objSet_same]

theorem ieg_fy (form : FormState) :
    objGet (preparePayload .ieg form) "approval_fy"
      = some (match FormVal.truthy (objGet form "approval_fy"), objGet form "approval_fy" with
              | true, some v => .num (parseInt v.toJsString 10)
              | _, _ => .null) := by
  show objGet (preparePayloadIeg form) _ = _
  unfold preparePayloadIeg
  rw [objGet_objSet_same]

/-- C1: an AidData form with commitment_amount_usd_constant "5000000" and
total_project_cost "" is prepared into a payload whose
commitment_amount_usd_constant is the number 5000000 and whose
total_project_cost is null. -/
theorem aiddata_payload_amount_and_empty_cost (form : FormState)
    (hAmount : objGet form "commitment_amount_usd_constant" = some (.str "5000000"))
    (hCost : objGet form "total_project_cost" = some (.str "")) :
    objGet (preparePayload .aiddata form) "commitment_amount_usd_constant"
        = some (.num (.fin false 5000000 0)) ∧
    objGet (preparePayload .aiddata form) "total_project_cost" = some .null := by
  constructor
  · rw [aiddata_amount, hAmount]
    have h : parseFloat "5000000" = .fin false 5000000 0 := by decide
    simp [FormVal.truthy, FormVal.toJsString, h]
  · rw [aiddata_cost, hCost]
    simp [FormVal.truthy]

theorem aiddata_payload_amount_and_empty_cost_witness :
    objGet (preparePayload .aiddata
        (objSet initialAidForm "commitment_amount_usd_constant" (.str "5000000")))
        "commitment_amount_usd_constant" = some (.num (.fin false 5000000 0)) ∧
    objGet (preparePayload .aiddata
        (objSet initialAidForm "commitment_amount_usd_constant" (.str "5000000")))
        "total_project_cost" = some .null :=
  aiddata_payload_amount_and_empty_cost
    (objSet initialAidForm "commitment_amount_usd_constant" (.str "5000000"))
    (by decide) (by decide)

theorem roundToDouble_exact_le (neg : Bool) (n : Nat) (h : n ≤ 2 ^ 53) :
    roundToDouble neg n 1 = .fin neg n 0 := by
  by_cases hlt : n < 2 ^ 53
  · exact roundToDouble_exact neg n hlt
  · have hn : n = 2 ^ 53 := by omega
    have hpos : 0 < n := by rw [hn]; exact Nat.two_pow_pos 53
    have hL : floorLog2 n = 53 := by rw [hn]; decide
    have hr : roundHalfEven n (1 * 2 ^ 1) * 2 ^ 1 = n := by rw [hn]; decide
    have hbig : ¬ (2 ^ 1024 ≤ n) := by
      have hlt2 : (2:Nat) ^ 53 < 2 ^ 1024 := Nat.pow_lt_pow_right (by decide) (by decide)
      intro hc
      rw [hn] at hc
      exact Nat.lt_irrefl _ (Nat.lt_of_lt_of_le hlt2 hc)
    have h0 : n ≠ 0 := by omega
    unfold roundToDouble
    rw [floorLog2Ratio_one n hpos, hL]
    have he : max (((53 : Nat) : Int) - 52) (-1074) = 1 := by decide
    simp only [h0, if_false, he]
    have h1 : (0 : Int) ≤ 1 := by decide
    have h2 : (1 : Int).toNat = 1 := rfl
    simp only [h1, if_true, h2, hr, hbig, if_false]

theorem digitVal_digitChar (d : Nat) (h : d < 10) : digitVal 10 (digitChar d) = some d := by
  interval_cases d <;> rfl

theorem takeDigits_digits (ds : List Nat) (hd : ∀ d ∈ ds, d < 10) :
    takeDigits 10 (ds.map digitChar) = (ds, []) := by
  induction ds with
  | nil => rfl
  | cons d rest ih =>
    have hd0 : d < 10 := hd d (List.mem_cons_self _ _)
    have ih' := ih (fun x hx => hd x (List.mem_cons_of_mem _ hx))
    simp [takeDigits, digitVal_digitChar d hd0, ih']

theorem digitsValue_foldl (ds : List Nat) (acc : Nat) :
    List.foldl (fun a d => 10 * a + d) acc ds
      = acc * 10 ^ ds.length + Nat.ofDigits 10 ds.reverse := by
  induction ds generalizing acc with
  | nil => simp
  | cons d rest ih =>
    rw [List.foldl_cons, ih, List.reverse_cons, Nat.ofDigits_append, Nat.ofDigits_singleton,
      List.length_reverse, List.length_cons]
    ring

theorem digitsValue_eq (ds : List Nat) : digitsValue 10 ds = Nat.ofDigits 10 ds.reverse := by
  unfold digitsValue
  rw [digitsValue_foldl]
  simp

theorem trimStart_digit (d : Nat) (h : d < 10) (cs : List Char) :
    trimStart (digitChar d :: cs) = digitChar d :: cs := by
  interval_cases d <;> rfl

theorem takeSign_digit (d : Nat) (h : d < 10) (cs : List Char) :
    takeSign (digitChar d :: cs) = (false, digitChar d :: cs) := by
  interval_cases d <;> rfl

theorem parseInt_decimalString (ds : List Nat) (hne : ds ≠ []) (hd : ∀ d ∈ ds, d < 10) :
    parseInt (decimalString ds) 10 = roundToDouble false (Nat.ofDigits 10 ds.reverse) 1 := by
  obtain ⟨d, rest, rfl⟩ := List.exists_cons_of_ne_nil hne
  have hd0 : d < 10 := hd d (List.mem_cons_self _ _)
  have htd := takeDigits_digits (d :: rest) hd
  rw [List.map_cons] at htd
  unfold parseInt decimalString
  simp only [List.map_cons, trimStart_digit d hd0, takeSign_digit d hd0]
  have hhex : hasHexPrefix 10 (digitChar d :: List.map digitChar rest) = false := by
    unfold hasHexPrefix
    split <;> simp
  simp [hhex, htd, digitsValue_eq]

/-- C2 (as amended): an IEG form whose approval_fy is a non-empty string of
decimal digits denoting a number n of at most 2^53 is prepared into a payload
whose approval_fy is the integer n; "0" gives 0, not null. -/
theorem ieg_payload_approval_fy_integer (form : FormState) (ds : List Nat)
    (hne : ds ≠ []) (hd : ∀ d ∈ ds, d < 10)
    (hsmall : Nat.ofDigits 10 ds.reverse ≤ 2 ^ 53)
    (hfy : objGet form "approval_fy" = some (.str (decimalString ds))) :
    objGet (preparePayload .ieg form) "approval_fy"
      = some (.num (.fin false (Nat.ofDigits 10 ds.reverse) 0)) := by
  rw [ieg_fy, hfy]
  have hs : decimalString ds ≠ "" := by
    obtain ⟨d, rest, rfl⟩ := List.exists_cons_of_ne_nil hne
    intro h
    have := congrArg String.data h
    simp [decimalString] at this
  simp only [FormVal.truthy, hs, ne_eq, not_false_eq_true, decide_True, FormVal.toJsString]
  rw [parseInt_decimalString ds hne hd, roundToDouble_exact_le false _ hsmall]

theorem ieg_payload_approval_fy_integer_witness :
    objGet (preparePayload .ieg (objSet initialIegForm "approval_fy" (.str "2020")))
        "approval_fy" = some (.num (.fin false 2020 0)) ∧
    objGet (preparePayload .ieg (objSet initialIegForm "approval_fy" (.str "0")))
        "approval_fy" = some (.num (.fin false 0 0)) :=
  ⟨ieg_payload_approval_fy_integer
      (objSet initialIegForm "approval_fy" (.str "2020")) [2, 0, 2, 0]
      (by decide) (by decide) (by decide) (by decide),
   ieg_payload_approval_fy_integer
      (objSet initialIegForm "approval_fy" (.str "0")) [0]
      (by decide) (by decide) (by decide) (by decide)⟩

set_option exponentiation.threshold 1100 in
/-- C2 (as stated) fails past 2^53: the digits 9007199254740993 are prepared
into the Number 9007199254740992, the nearest double. -/
theorem ieg_payload_approval_fy_rounds :
    objGet (preparePayload .ieg
        (objSet initialIegForm "approval_fy" (.str (decimalString
          [9, 0, 0, 7, 1, 9, 9, 2, 5, 4, 7, 4, 0, 9, 9, 3])))) "approval_fy"
      = some (.num (.fin false 9007199254740992 0)) ∧
    Nat.ofDigits 10 [9, 0, 0, 7, 1, 9, 9, 2, 5, 4, 7, 4, 0, 9, 9, 3].reverse
      = 9007199254740993 ∧
    decimalString [9, 0, 0, 7, 1, 9, 9, 2, 5, 4, 7, 4, 0, 9, 9, 3] = "9007199254740993" := by
  refine ⟨by rfl, by decide, by decide⟩

/-- On every form, reachable or not, the payload has the key of the optional
numeric field (total_project_cost for AidData, approval_fy for IEG), and its
value is null exactly when the form's field is falsy: absent, the empty string,
or the boolean false. -/
theorem optional_numeric_null_iff_falsy (form : FormState) :
    (∃ v, objGet (preparePayload .aiddata form) "total_project_cost" = some v ∧
      (v = .null ↔
        (objGet form "total_project_cost" = none ∨
         objGet form "total_project_cost" = some (.str "") ∨
         objGet form "total_project_cost" = some (.bool false)))) ∧
    (∃ v, objGet (preparePayload .ieg form) "approval_fy" = some v ∧
      (v = .null ↔
        (objGet form "approval_fy" = none ∨
         objGet form "approval_fy" = some (.str "") ∨
         objGet form "approval_fy" = some (.bool false)))) := by
  constructor
  · refine ⟨_, aiddata_cost form, ?_⟩
    cases h : objGet form "total_project_cost" with
    | none => simp [FormVal.truthy]
    | some v =>
      cases v with
      | str s => by_cases hs : s = "" <;> simp [FormVal.truthy, hs]
      | bool b => cases b <;> simp [FormVal.truthy]
  · refine ⟨_, ieg_fy form, ?_⟩
    cases h : objGet form "approval_fy" with
    | none => simp [FormVal.truthy]
    | some v =>
      cases v with
      | str s => by_cases hs : s = "" <;> simp [FormVal.truthy, hs]
      | bool b => cases b <;> simp [FormVal.truthy]

/-- C4: for each variant and every form, every field name of the form is a key
of the payload, and every field other than the coerced numeric ones
(commitment_amount_usd_constant and total_project_cost for AidData, approval_fy
for IEG) has in the payload exactly the value it has in the form. -/
theorem payload_keeps_fields (form : FormState) (k : String) :
    ((objGet form k).isSome → (objGet (preparePayload .aiddata form) k).isSome) ∧
    ((objGet form k).isSome → (objGet (preparePayload .ieg form) k).isSome) ∧
    (k ≠ "commitment_amount_usd_constant" → k ≠ "total_project_cost" →
      objGet (preparePayload .aiddata form) k = (objGet form k).map FormVal.toJs) ∧
    (k ≠ "approval_fy" →
      objGet (preparePayload .ieg form) k = (objGet form k).map FormVal.toJs) := by
  have hA : k ≠ "commitment_amount_usd_constant" → k ≠ "total_project_cost" →
      objGet (preparePayload .aiddata form) k = (objGet form k).map FormVal.toJs := by
    intro h1 h2
    show objGet (preparePayloadAiddata form) k = _
    unfold preparePayloadAiddata
    rw [objGet_objSet_ne _ _ _ _ h2, objGet_objSet_ne _ _ _ _ h1, objGet_spread]
  have hI : k ≠ "approval_fy" →
      objGet (preparePayload .ieg form) k = (objGet form k).map FormVal.toJs := by
    intro h1
    show objGet (preparePayloadIeg form) k = _
    unfold preparePayloadIeg
    rw [objGet_objSet_ne _ _ _ _ h1, objGet_spread]
  refine ⟨?_, ?_, hA, hI⟩
  · intro hk
    by_cases h1 : k = "commitment_amount_usd_constant"
    · rw [h1, aiddata_amount]; rfl
    · by_cases h2 : k = "total_project_cost"
      · rw [h2, aiddata_cost]; rfl
      · rw [hA h1 h2]; simpa using hk
  · intro hk
    by_cases h1 : k = "approval_fy"
    · rw [h1, ieg_fy]; rfl
    · rw [hI h1]; simpa using hk

theorem payload_keeps_fields_witness :
    (objGet (preparePayload .aiddata initialAidForm) "donor").isSome ∧
    (objGet (preparePayload .ieg initialIegForm) "wb_region").isSome ∧
    objGet (preparePayload .aiddata initialAidForm) "is_multi_country" = some (.bool false) ∧
    objGet (preparePayload .ieg initialIegForm) "is_multi_country" = some (.bool false) :=
  ⟨(payload_keeps_fields initialAidForm "donor").1 (by decide),
   (payload_keeps_fields initialIegForm "wb_region").2.1 (by decide),
   (payload_keeps_fields initialAidForm "is_multi_country").2.2.1 (by decide) (by decide),
   (payload_keeps_fields initialIegForm "is_multi_country").2.2.2 (by decide)⟩

/-! ## Submission -/

/-- C5: on every state, the synchronous part of a submission on the active
variant V sets the in-flight marker to V, sets predictions[V] and errors[V] to
null whatever they held, and leaves the result and error of the other
variant, every form and the active variant as they were. -/
theorem submit_start_clears_active (apiBaseUrl : String) (s : AppState) :
    ((handleSubmitStart apiBaseUrl s).1).loadingModel = some s.activeModelKey ∧
    ((handleSubmitStart apiBaseUrl s).1).predictions.get s.activeModelKey = .null ∧
    ((handleSubmitStart apiBaseUrl s).1).errors.get s.activeModelKey = none ∧
    (∀ other, other ≠ s.activeModelKey →
      ((handleSubmitStart apiBaseUrl s).1).predictions.get other = s.predictions.get other ∧
      ((handleSubmitStart apiBaseUrl s).1).errors.get other = s.errors.get other) ∧
    ((handleSubmitStart apiBaseUrl s).1).forms = s.forms ∧
    ((handleSubmitStart apiBaseUrl s).1).activeModelKey = s.activeModelKey := by
  refine ⟨rfl, ?_, ?_, ?_, rfl, rfl⟩
  · exact PerModel.get_set_same _ _ _
  · exact PerModel.get_set_same _ _ _
  · intro other h
    exact ⟨PerModel.get_set_ne _ _ _ _ h, PerModel.get_set_ne _ _ _ _ h⟩

theorem submit_start_clears_active_witness :
    ((handleSubmitStart "http://127.0.0.1:8000" busyState).1).predictions.get .aiddata
        = busyState.predictions.get .aiddata ∧
    ((handleSubmitStart "http://127.0.0.1:8000" busyState).1).errors.get .aiddata
        = busyState.errors.get .aiddata :=
  (submit_start_clears_active "http://127.0.0.1:8000" busyState).2.2.2.1 .aiddata (by decide)

theorem settle_ok (eng : Engine) (apiBaseUrl : String) (s : AppState) (o : FetchOutcome)
    (data : JsVal) (h : tryBlock eng o = .ok data) :
    (handleSubmit eng apiBaseUrl s o).predictions.get s.activeModelKey = data ∧
    (handleSubmit eng apiBaseUrl s o).errors.get s.activeModelKey = none ∧
    (handleSubmit eng apiBaseUrl s o).loadingModel = none ∧
    (handleSubmit eng apiBaseUrl s o).activeModelKey = s.activeModelKey := by
  simp only [handleSubmit, handleSubmitSettle, handleSubmitStart, h]
  simp [PerModel.get_set_same]

theorem settle_error (eng : Engine) (apiBaseUrl : String) (s : AppState) (o : FetchOutcome)
    (message : String) (h : tryBlock eng o = .error message) :
    (handleSubmit eng apiBaseUrl s o).errors.get s.activeModelKey
        = some (if message ≠ "" then message else "Something went wrong") ∧
    (handleSubmit eng apiBaseUrl s o).predictions.get s.activeModelKey = .null ∧
    (handleSubmit eng apiBaseUrl s o).loadingModel = none := by
  simp only [handleSubmit, handleSubmitSettle, handleSubmitStart, h]
  simp [PerModel.get_set_same]

theorem getProp_no_error (eng : Engine) (data : JsVal) (hnull : data ≠ .null)
    (hno : ∀ fields, data = .obj fields → objGet fields "error" = none) :
    getProp eng data "error" = .ok none := by
  cases data with
  | null => exact absurd rfl hnull
  | obj fields => simp [getProp, hno fields rfl]
  | _ => rfl

theorem errorMessage_of_string (eng : Engine) (fields : List (String × JsVal)) (status : Nat)
    (m : String) (hm : m ≠ "") (h : objGet fields "error" = some (.str m)) :
    errorMessage eng (.obj fields) status = .ok m := by
  simp [errorMessage, getProp, h, truthy, JsVal.truthy, hm, JsVal.toJsString, bind, Except.bind]

theorem errorMessage_no_error (eng : Engine) (data : JsVal) (status : Nat)
    (h : getProp eng data "error" = .ok none) :
    errorMessage eng data status = .ok ("HTTP " ++ Nat.repr status) := by
  simp [errorMessage, h, truthy, bind, Except.bind, pure, Except.pure]

theorem checkResponse_not_ok (eng : Engine) (status : Nat) (data : JsVal)
    (h : resOk status = false) :
    ∃ m, checkResponse eng status data = .error m := by
  unfold checkResponse
  simp only [h, Bool.not_false, if_true]
  cases errorMessage eng data status with
  | ok m => exact ⟨m, rfl⟩
  | error m => exact ⟨m, rfl⟩

theorem checkResponse_error_string (eng : Engine) (status : Nat)
    (fields : List (String × JsVal)) (m : String) (hm : m ≠ "")
    (h : objGet fields "error" = some (.str m)) :
    checkResponse eng status (.obj fields) = .error m := by
  unfold checkResponse
  rw [errorMessage_of_string eng fields status m hm h]
  cases resOk status <;> simp [getProp, h, truthy, JsVal.truthy, hm]

theorem fallback_ne_empty (message : String) :
    (if message ≠ "" then message else "Something went wrong") ≠ "" := by
  by_cases h : message = ""
  · simp [h]
  · simp [h]

theorem http_message_ne_empty (status : Nat) : "HTTP " ++ Nat.repr status ≠ "" := by
  intro h
  have := congrArg String.length h
  simp [String.length_append] at this
  have h4 : "HTTP ".length = 5 := by decide
  have h0 : "".length = 0 := by decide
  omega

/-- C8 (as amended): for a response whose status is outside the success range,
a decoded body with a non-empty error string m gives exactly the message m, and
a decoded body that is not null and has no error field gives exactly "HTTP "
followed by the decimal status code. -/
theorem failure_message (eng : Engine) (apiBaseUrl : String) (s : AppState) (status : Nat)
    (hbad : resOk status = false) :
    (∀ fields m, m ≠ "" → objGet fields "error" = some (.str m) →
      (handleSubmit eng apiBaseUrl s (.response status (.ok (.obj fields)))).errors.get
        s.activeModelKey = some m) ∧
    (∀ data, data ≠ .null → (∀ fields, data = .obj fields → objGet fields "error" = none) →
      (handleSubmit eng apiBaseUrl s (.response status (.ok data))).errors.get
        s.activeModelKey = some ("HTTP " ++ Nat.repr status)) := by
  constructor
  · intro fields m hm hf
    have ht : tryBlock eng (.response status (.ok (.obj fields))) = .error m :=
      checkResponse_error_string eng status fields m hm hf
    rw [(settle_error eng apiBaseUrl s _ m ht).1]
    simp [hm]
  · intro data hnull hno
    have ht : tryBlock eng (.response status (.ok data))
        = .error ("HTTP " ++ Nat.repr status) := by
      simp [tryBlock, checkResponse, hbad,
        errorMessage_no_error eng data status (getProp_no_error eng data hnull hno)]
    rw [(settle_error eng apiBaseUrl s _ _ ht).1]
    simp [http_message_ne_empty status]

theorem failure_message_witness :
    (handleSubmit v8 "http://127.0.0.1:8000" busyState
        (.response 500 (.ok (.obj [("error", .str "model unavailable")])))).errors.get .ieg
      = some "model unavailable" ∧
    (handleSubmit v8 "http://127.0.0.1:8000" busyState
        (.response 404 (.ok (.obj [])))).errors.get .ieg = some "HTTP 404" :=
  ⟨(failure_message v8 "http://127.0.0.1:8000" busyState 500 (by decide)).1
      [("error", .str "model unavailable")] "model unavailable" (by decide) (by rfl),
   (failure_message v8 "http://127.0.0.1:8000" busyState 404 (by decide)).2
      (.obj []) (by simp) (by intro fields hf; cases hf; rfl)⟩

/-- C8 (as stated) fails on the body `null`: with status 500 and no error
field, the stored message is the engine's TypeError text, not "HTTP 500". -/
theorem failure_message_null_body :
    (handleSubmit v8 "http://127.0.0.1:8000" AppState.initial
        (.response 500 (.ok .null))).errors.get .aiddata
      = some "Cannot read properties of null (reading 'error')" := by
  rfl

/-- C10: whatever the outcome of the transport (success, status outside the
success range, error reported in the body, rejection, undecodable body) and
whatever state the continuation resumes on, the settled submission leaves the
in-flight marker `loadingModel` at null. -/
theorem settle_clears_loading (eng : Engine) (apiBaseUrl : String) (s : AppState)
    (p : Pending) (o : FetchOutcome) :
    (handleSubmitSettle eng p o s).loadingModel = none ∧
    (handleSubmit eng apiBaseUrl s o).loadingModel = none := by
  constructor
  · unfold handleSubmitSettle
    cases tryBlock eng o <;> rfl
  · unfold handleSubmit handleSubmitSettle
    cases tryBlock eng o <;> rfl

/-! ## Editing, resetting, switching -/

/-- C11: on every state, for every field name and input event, `handleChange`
stores under that name in the active variant's form the event's boolean
`checked` when the input type is "checkbox" and the raw string `value`
otherwise, and every other field of that form reads as before. -/
theorem change_writes_field (s : AppState) (e : ChangeTarget) :
    objGet ((handleChange s e).forms.get s.activeModelKey) e.name
      = some (if e.type = "checkbox" then .bool e.checked else .str e.value) ∧
    (∀ k, k ≠ e.name →
      objGet ((handleChange s e).forms.get s.activeModelKey) k
        = objGet (s.forms.get s.activeModelKey) k) := by
  constructor
  · simp only [handleChange, PerModel.get_set_same]
    exact objGet_objSet_same _ _ _
  · intro k hk
    simp only [handleChange, PerModel.get_set_same]
    exact objGet_objSet_ne _ _ _ _ hk

theorem change_writes_field_witness :
    objGet ((handleChange busyState ⟨"approval_fy", "2021", "number", false⟩).forms.get .ieg)
        "approval_fy" = some (.str "2021") ∧
    objGet ((handleChange busyState ⟨"approval_fy", "2021", "number", false⟩).forms.get .ieg)
        "wb_region" = objGet (busyState.forms.get .ieg) "wb_region" :=
  ⟨(change_writes_field busyState ⟨"approval_fy", "2021", "number", false⟩).1,
   (change_writes_field busyState ⟨"approval_fy", "2021", "number", false⟩).2
      "wb_region" (by decide)⟩

/-- C12: on every state and for every event, `handleChange` on the active
variant leaves the form of the other variant as it was, also for the field
names both forms have (implementing_agency, is_multi_country). -/
theorem change_keeps_other_form (s : AppState) (e : ChangeTarget) (other : ModelKey)
    (h : other ≠ s.activeModelKey) :
    (handleChange s e).forms.get other = s.forms.get other := by
  simp only [handleChange]
  exact PerModel.get_set_ne _ _ _ _ h

theorem change_keeps_other_form_witness :
    (handleChange busyState ⟨"implementing_agency", "UNDP", "text", false⟩).forms.get .aiddata
        = busyState.forms.get .aiddata ∧
    (handleChange busyState ⟨"is_multi_country", "", "checkbox", true⟩).forms.get .aiddata
        = busyState.forms.get .aiddata :=
  ⟨change_keeps_other_form busyState ⟨"implementing_agency", "UNDP", "text", false⟩ .aiddata
      (by decide),
   change_keeps_other_form busyState ⟨"is_multi_country", "", "checkbox", true⟩ .aiddata
      (by decide)⟩

/-- C13: on every state, so on every state reached by edits, switches,
submissions and settlements, `handleReset` makes the active variant's form
the registry's initial form (every field the empty string, except
is_multi_country, which is false) and sets its result and error to null. -/
theorem reset_restores_active (s : AppState) :
    (handleReset s).forms.get s.activeModelKey = initialForm s.activeModelKey ∧
    (handleReset s).predictions.get s.activeModelKey = .null ∧
    (handleReset s).errors.get s.activeModelKey = none ∧
    (∀ key, ∀ entry ∈ initialForm key,
      entry.2 = if entry.1 = "is_multi_country" then .bool false else .str "") := by
  refine ⟨PerModel.get_set_same _ _ _, PerModel.get_set_same _ _ _,
    PerModel.get_set_same _ _ _, ?_⟩
  intro key
  cases key <;> decide

theorem reset_restores_active_witness :
    (("approval_fy", FormVal.str "") : String × FormVal).2
      = if (("approval_fy", FormVal.str "") : String × FormVal).1 = "is_multi_country"
        then .bool false else .str "" :=
  (reset_restores_active busyState).2.2.2 .ieg ("approval_fy", .str "") (by decide)

/-- C14: on every state, `handleReset` on the active variant leaves the other
variant's form, result and error, and the active variant itself, as they
were. -/
theorem reset_keeps_other (s : AppState) (other : ModelKey) (h : other ≠ s.activeModelKey) :
    (handleReset s).forms.get other = s.forms.get other ∧
    (handleReset s).predictions.get other = s.predictions.get other ∧
    (handleReset s).errors.get other = s.errors.get other ∧
    (handleReset s).activeModelKey = s.activeModelKey :=
  ⟨PerModel.get_set_ne _ _ _ _ h, PerModel.get_set_ne _ _ _ _ h,
   PerModel.get_set_ne _ _ _ _ h, rfl⟩

theorem reset_keeps_other_witness :
    (handleReset busyState).forms.get .aiddata = busyState.forms.get .aiddata ∧
    (handleReset busyState).predictions.get .aiddata = busyState.predictions.get .aiddata ∧
    (handleReset busyState).errors.get .aiddata = busyState.errors.get .aiddata ∧
    (handleReset busyState).activeModelKey = busyState.activeModelKey :=
  reset_keeps_other busyState .aiddata (by decide)

/-- C15: on every state and for every variant V, the model switcher changes
only the active variant: forms, results, errors and the in-flight marker are
as before, and switching to V twice gives the same state as switching once. -/
theorem select_changes_only_pointer (s : AppState) (key : ModelKey) :
    (setActiveModelKey s key).activeModelKey = key ∧
    (setActiveModelKey s key).forms = s.forms ∧
    (setActiveModelKey s key).predictions = s.predictions ∧
    (setActiveModelKey s key).errors = s.errors ∧
    (setActiveModelKey s key).loadingModel = s.loadingModel ∧
    setActiveModelKey (setActiveModelKey s key) key = setActiveModelKey s key :=
  ⟨rfl, rfl, rfl, rfl, rfl, rfl⟩

/-! ## Settling after other events -/

theorem settle_writes_key (eng : Engine) (p : Pending) (o : FetchOutcome) (s : AppState) :
    (∀ data, tryBlock eng o = .ok data →
      (handleSubmitSettle eng p o s).predictions.get p.key = data ∧
      (handleSubmitSettle eng p o s).errors = s.errors) ∧
    (∀ m, tryBlock eng o = .error m →
      (handleSubmitSettle eng p o s).errors.get p.key
        = some (if m ≠ "" then m else "Something went wrong") ∧
      (handleSubmitSettle eng p o s).predictions = s.predictions) := by
  constructor
  · intro data h
    simp only [handleSubmitSettle, h]
    simp [PerModel.get_set_same]
  · intro m h
    simp only [handleSubmitSettle, h]
    simp [PerModel.get_set_same]

theorem settle_keeps_other (eng : Engine) (p : Pending) (o : FetchOutcome) (s : AppState)
    (other : ModelKey) (h : other ≠ p.key) :
    (handleSubmitSettle eng p o s).forms = s.forms ∧
    (handleSubmitSettle eng p o s).predictions.get other = s.predictions.get other ∧
    (handleSubmitSettle eng p o s).errors.get other = s.errors.get other ∧
    (handleSubmitSettle eng p o s).activeModelKey = s.activeModelKey := by
  unfold handleSubmitSettle
  cases tryBlock eng o with
  | ok data => exact ⟨rfl, PerModel.get_set_ne _ _ _ _ h, rfl, rfl⟩
  | error m => exact ⟨rfl, rfl, PerModel.get_set_ne _ _ _ _ h, rfl⟩

/-- C16: when a submission starts while V is active and another variant W is
selected before the transport settles, the settlement writes the result or the
error of V, the variant captured at submit time, and leaves the form, result
and error of W as they were before the submission; W stays the active
variant. -/
theorem settle_after_switch_writes_captured (eng : Engine) (apiBaseUrl : String)
    (s : AppState) (other : ModelKey) (o : FetchOutcome) (h : other ≠ s.activeModelKey) :
    (∀ data, tryBlock eng o = .ok data →
      (handleSubmitSettle eng (handleSubmitStart apiBaseUrl s).2 o
        (setActiveModelKey (handleSubmitStart apiBaseUrl s).1 other)).predictions.get
          s.activeModelKey = data) ∧
    (∀ m, tryBlock eng o = .error m →
      (handleSubmitSettle eng (handleSubmitStart apiBaseUrl s).2 o
        (setActiveModelKey (handleSubmitStart apiBaseUrl s).1 other)).errors.get
          s.activeModelKey = some (if m ≠ "" then m else "Something went wrong")) ∧
    (handleSubmitSettle eng (handleSubmitStart apiBaseUrl s).2 o
      (setActiveModelKey (handleSubmitStart apiBaseUrl s).1 other)).forms.get other
        = s.forms.get other ∧
    (handleSubmitSettle eng (handleSubmitStart apiBaseUrl s).2 o
      (setActiveModelKey (handleSubmitStart apiBaseUrl s).1 other)).predictions.get other
        = s.predictions.get other ∧
    (handleSubmitSettle eng (handleSubmitStart apiBaseUrl s).2 o
      (setActiveModelKey (handleSubmitStart apiBaseUrl s).1 other)).errors.get other
        = s.errors.get other ∧
    (handleSubmitSettle eng (handleSubmitStart apiBaseUrl s).2 o
      (setActiveModelKey (handleSubmitStart apiBaseUrl s).1 other)).activeModelKey = other := by
  have hw := settle_writes_key eng (handleSubmitStart apiBaseUrl s).2 o
    (setActiveModelKey (handleSubmitStart apiBaseUrl s).1 other)
  have hk := settle_keeps_other eng (handleSubmitStart apiBaseUrl s).2 o
    (setActiveModelKey (handleSubmitStart apiBaseUrl s).1 other) other h
  refine ⟨fun data hd => (hw.1 data hd).1, fun m hm => (hw.2 m hm).1, ?_, ?_, ?_, ?_⟩
  · rw [hk.1]; rfl
  · rw [hk.2.1]
    exact PerModel.get_set_ne _ _ _ _ h
  · rw [hk.2.2.1]
    exact PerModel.get_set_ne _ _ _ _ h
  · rw [hk.2.2.2]; rfl

theorem settle_after_switch_writes_captured_witness :
    (handleSubmitSettle v8 (handleSubmitStart "http://127.0.0.1:8000" busyState).2
      (.response 200 (.ok exampleBody))
      (setActiveModelKey (handleSubmitStart "http://127.0.0.1:8000" busyState).1
        .aiddata)).predictions.get .ieg = exampleBody ∧
    (handleSubmitSettle v8 (handleSubmitStart "http://127.0.0.1:8000" busyState).2
      (.response 200 (.ok exampleBody))
      (setActiveModelKey (handleSubmitStart "http://127.0.0.1:8000" busyState).1
        .aiddata)).errors.get .aiddata = some "HTTP 500" :=
  ⟨(settle_after_switch_writes_captured v8 "http://127.0.0.1:8000" busyState .aiddata
      (.response 200 (.ok exampleBody)) (by decide)).1 exampleBody rfl,
   (settle_after_switch_writes_captured v8 "http://127.0.0.1:8000" busyState .aiddata
      (.response 200 (.ok exampleBody)) (by decide)).2.2.2.2.1⟩

/-- C17: when the active variant V is reset while its request is in flight,
the successful response that arrives later is still applied: the reset leaves
predictions[V] null, and after the settlement predictions[V] is the decoded
body. -/
theorem settle_after_reset_applies (eng : Engine) (apiBaseUrl : String) (s : AppState)
    (status : Nat) (data : JsVal) (hok : resOk status = true) (hnull : data ≠ .null)
    (hno : ∀ fields, data = .obj fields → objGet fields "error" = none) :
    (handleReset (handleSubmitStart apiBaseUrl s).1).predictions.get s.activeModelKey
      = .null ∧
    (handleSubmitSettle eng (handleSubmitStart apiBaseUrl s).2 (.response status (.ok data))
      (handleReset (handleSubmitStart apiBaseUrl s).1)).predictions.get s.activeModelKey
      = data := by
  have h : tryBlock eng (.response status (.ok data)) = .ok data := by
    simp [tryBlock, checkResponse, hok, getProp_no_error eng data hnull hno, truthy]
  constructor
  · exact PerModel.get_set_same _ _ _
  · exact ((settle_writes_key eng (handleSubmitStart apiBaseUrl s).2 _
      (handleReset (handleSubmitStart apiBaseUrl s).1)).1 data h).1

theorem settle_after_reset_applies_witness :
    (handleReset (handleSubmitStart "http://127.0.0.1:8000" busyState).1).predictions.get .ieg
      = .null ∧
    (handleSubmitSettle v8 (handleSubmitStart "http://127.0.0.1:8000" busyState).2
      (.response 200 (.ok exampleBody))
      (handleReset (handleSubmitStart "http://127.0.0.1:8000" busyState).1)).predictions.get
        .ieg = exampleBody :=
  settle_after_reset_applies v8 "http://127.0.0.1:8000" busyState 200 exampleBody
    (by decide) (by simp [exampleBody]) (by intro fields hf; cases hf; rfl)

/-! ## Empty fields in the request body -/

theorem payload_fields_of_form (form : FormState) (k : String) :
    (k ≠ "commitment_amount_usd_constant" → k ≠ "total_project_cost" →
      objGet (preparePayload .aiddata form) k = (objGet form k).map FormVal.toJs) ∧
    (k ≠ "approval_fy" →
      objGet (preparePayload .ieg form) k = (objGet form k).map FormVal.toJs) := by
  constructor
  · intro h1 h2
    show objGet (preparePayloadAiddata form) k = _
    unfold preparePayloadAiddata
    rw [objGet_objSet_ne _ _ _ _ h2, objGet_objSet_ne _ _ _ _ h1, objGet_spread]
  · intro h1
    show objGet (preparePayloadIeg form) k = _
    unfold preparePayloadIeg
    rw [objGet_objSet_ne _ _ _ _ h1, objGet_spread]

theorem objGet_toJsonFields (fields : List (String × JsVal)) (k : String) :
    objGet (JsVal.toJsonFields fields) k = (objGet fields k).map JsVal.toJson := by
  induction fields with
  | nil => rfl
  | cons e rest ih =>
    obtain ⟨k', v⟩ := e
    by_cases h : k' = k
    · simp [JsVal.toJsonFields, objGet, h]
    · simp [JsVal.toJsonFields, objGet, h, ih]

theorem body_of_submit (apiBaseUrl : String) (s : AppState) (k : String) :
    objGet (handleSubmitStart apiBaseUrl s).2.request.body k
      = (objGet (preparePayload s.activeModelKey (s.forms.get s.activeModelKey)) k).map
          JsVal.toJson :=
  objGet_toJsonFields _ k

/-- C20 (as amended): in the body of the request a field left empty is
carried as null only when it is the optional numeric field (total_project_cost
for AidData, approval_fy for IEG); every other field left empty, apart from the
required commitment_amount_usd_constant, is carried as the empty string. -/
theorem empty_field_in_body (apiBaseUrl : String) (s : AppState) (k : String)
    (hk : k ≠ "commitment_amount_usd_constant")
    (hempty : objGet (s.forms.get s.activeModelKey) k = some (.str "")) :
    (s.activeModelKey = .aiddata →
      objGet (handleSubmitStart apiBaseUrl s).2.request.body k
        = some (if k = "total_project_cost" then .null else .str "")) ∧
    (s.activeModelKey = .ieg →
      objGet (handleSubmitStart apiBaseUrl s).2.request.body k
        = some (if k = "approval_fy" then .null else .str "")) := by
  constructor
  · intro hA
    rw [body_of_submit, hA]
    rw [hA] at hempty
    by_cases hc : k = "total_project_cost"
    · subst hc
      rw [aiddata_cost, hempty]
      simp [FormVal.truthy, JsVal.toJson]
    · rw [(payload_fields_of_form (s.forms.get .aiddata) k).1 hk hc, hempty]
      simp [hc, FormVal.toJs, JsVal.toJson]
  · intro hI
    rw [body_of_submit, hI]
    rw [hI] at hempty
    by_cases hc : k = "approval_fy"
    · subst hc
      rw [ieg_fy, hempty]
      simp [FormVal.truthy, JsVal.toJson]
    · rw [(payload_fields_of_form (s.forms.get .ieg) k).2 hc, hempty]
      simp [hc, FormVal.toJs, JsVal.toJson]

theorem empty_field_in_body_witness :
    objGet (handleSubmitStart "http://127.0.0.1:8000" AppState.initial).2.request.body
        "total_project_cost" = some .null ∧
    objGet (handleSubmitStart "http://127.0.0.1:8000" AppState.initial).2.request.body
        "title" = some (.str "") ∧
    objGet (handleSubmitStart "http://127.0.0.1:8000" busyState).2.request.body
        "project_name" = some (.str "") :=
  ⟨(empty_field_in_body "http://127.0.0.1:8000" AppState.initial "total_project_cost"
      (by decide) (by decide)).1 rfl,
   (empty_field_in_body "http://127.0.0.1:8000" AppState.initial "title"
      (by decide) (by decide)).1 rfl,
   (empty_field_in_body "http://127.0.0.1:8000" busyState "project_name"
      (by decide) (by decide)).2 rfl⟩

/-- C20 (as stated) fails on the untouched AidData form: the optional fields
commitment_date, implementing_agency, financing_agency and title are sent as
the empty string, not as null. -/
theorem empty_optional_text_fields_sent_empty :
    objGet (handleSubmitStart "http://127.0.0.1:8000" AppState.initial).2.request.body
        "commitment_date" = some (.str "") ∧
    objGet (handleSubmitStart "http://127.0.0.1:8000" AppState.initial).2.request.body
        "implementing_agency" = some (.str "") ∧
    objGet (handleSubmitStart "http://127.0.0.1:8000" AppState.initial).2.request.body
        "financing_agency" = some (.str "") ∧
    objGet (handleSubmitStart "http://127.0.0.1:8000" AppState.initial).2.request.body
        "title" = some (.str "") := by
  refine ⟨rfl, rfl, rfl, rfl⟩

/-! ## Requests in flight -/

theorem settle_loading_none (eng : Engine) (p : Pending) (o : FetchOutcome) (s : AppState) :
    (handleSubmitSettle eng p o s).loadingModel = none := by
  unfold handleSubmitSettle
  cases tryBlock eng o <;> rfl

theorem step_keeps_atMostOneMarked (guard : SubmitGuard) (eng : Engine) (apiBaseUrl : String)
    (hg : ∀ σ, atMostOneMarked σ = true → guard σ = true → σ.pending = [])
    (σ next : Sys) (ev : Event) (hstep : step guard eng apiBaseUrl σ ev = some next)
    (hinv : atMostOneMarked σ = true) : atMostOneMarked next = true := by
  cases ev with
  | change e =>
    simp only [step, Option.some.injEq] at hstep
    subst hstep
    exact hinv
  | select key =>
    simp only [step, Option.some.injEq] at hstep
    subst hstep
    exact hinv
  | reset =>
    simp only [step, Option.some.injEq] at hstep
    subst hstep
    exact hinv
  | submit =>
    by_cases hguard : guard σ = true
    · have hp := hg σ hinv hguard
      simp only [step, hguard, if_true, Option.some.injEq] at hstep
      subst hstep
      simp [atMostOneMarked, hp, handleSubmitStart]
    · simp [step, hguard] at hstep
  | settle i o =>
    obtain ⟨app, pending⟩ := σ
    match pending, hinv, hstep with
    | [], _, hstep => simp [step] at hstep
    | [p], _, hstep =>
      cases i with
      | zero =>
        simp only [step, List.getElem?_cons_zero, List.eraseIdx_cons_zero,
          Option.some.injEq] at hstep
        subst hstep
        simp [atMostOneMarked, settle_loading_none]
      | succ j => simp [step] at hstep
    | _ :: _ :: _, hinv, _ => simp [atMostOneMarked] at hinv

theorem run_keeps_atMostOneMarked (guard : SubmitGuard) (eng : Engine) (apiBaseUrl : String)
    (hg : ∀ σ, atMostOneMarked σ = true → guard σ = true → σ.pending = [])
    (events : List Event) :
    ∀ σ final, run guard eng apiBaseUrl events σ = some final →
      atMostOneMarked σ = true → atMostOneMarked final = true := by
  induction events with
  | nil =>
    intro σ final hrun hinv
    simp only [run, Option.some.injEq] at hrun
    subst hrun
    exact hinv
  | cons ev rest ih =>
    intro σ final hrun hinv
    simp only [run] at hrun
    cases hs : step guard eng apiBaseUrl σ ev with
    | none => simp [hs] at hrun
    | some next =>
      rw [hs] at hrun
      exact ih next final hrun (step_keeps_atMostOneMarked guard eng apiBaseUrl hg σ next ev hs hinv)

theorem noneUnsettled_serial (σ : Sys) (_ : atMostOneMarked σ = true)
    (h : noneUnsettled σ = true) : σ.pending = [] := by
  simpa [noneUnsettled] using h

theorem controlEnabledOneVariant_serial (σ : Sys) (hinv : atMostOneMarked σ = true)
    (h : controlEnabledOneVariant σ = true) : σ.pending = [] := by
  obtain ⟨app, pending⟩ := σ
  match pending, hinv, h with
  | [], _, _ => rfl
  | [p], hinv, h =>
    simp [atMostOneMarked] at hinv
    simp [controlEnabledOneVariant, AppState.loading, hinv] at h
  | _ :: _ :: _, hinv, _ => simp [atMostOneMarked] at hinv

/-- C18 (as amended): the in-flight marker is one cell for both variants.  In
every state reached by a run in which a request is started only when none is
unsettled, every request that has not yet settled belongs to the variant the
marker identifies. -/
theorem unsettled_request_is_marked (eng : Engine) (apiBaseUrl : String)
    (events : List Event) (σ : Sys)
    (hrun : run noneUnsettled eng apiBaseUrl events Sys.initial = some σ)
    (p : Pending) (hp : p ∈ σ.pending) :
    σ.app.loadingModel = some p.key := by
  have hinv := run_keeps_atMostOneMarked noneUnsettled eng apiBaseUrl noneUnsettled_serial
    events Sys.initial σ hrun rfl
  obtain ⟨app, pending⟩ := σ
  match pending, hinv, hp with
  | [q], hinv, hp =>
    simp only [List.mem_singleton] at hp
    subst hp
    simpa [atMostOneMarked] using hinv
  | _ :: _ :: _, hinv, _ => simp [atMostOneMarked] at hinv

theorem unsettled_request_is_marked_witness :
    (handleSubmitStart "http://127.0.0.1:8000"
        (setActiveModelKey AppState.initial .ieg)).1.loadingModel = some .ieg :=
  unsettled_request_is_marked v8 "http://127.0.0.1:8000" [.select .ieg, .submit]
    ⟨(handleSubmitStart "http://127.0.0.1:8000" (setActiveModelKey AppState.initial .ieg)).1,
     [(handleSubmitStart "http://127.0.0.1:8000" (setActiveModelKey AppState.initial .ieg)).2]⟩
    rfl
    (handleSubmitStart "http://127.0.0.1:8000" (setActiveModelKey AppState.initial .ieg)).2
    (List.mem_singleton.mpr rfl)

/-- C18 (as stated) fails with the submit control as the only trigger: after a
submission on aiddata, a switch to ieg and a submission there, the aiddata
request is unsettled while the marker names ieg; once the ieg request settles
the marker is null with the aiddata request still unsettled. -/
theorem marker_lost_by_other_variant :
    (run controlEnabled v8 "http://127.0.0.1:8000" [.submit, .select .ieg, .submit]
        Sys.initial).map (fun σ => (σ.pending.map (fun p => p.key), σ.app.loadingModel))
      = some ([.aiddata, .ieg], some .ieg) ∧
    (run controlEnabled v8 "http://127.0.0.1:8000"
        [.submit, .select .ieg, .submit, .settle 1 (.rejected "Failed to fetch")]
        Sys.initial).map (fun σ => (σ.pending.map (fun p => p.key), σ.app.loadingModel))
      = some ([.aiddata], none) := by
  constructor <;> rfl

/-- C19 (as amended): in every run in which submissions are triggered only
through the submit control and none is started on one variant while a request
of the other variant is unsettled, no variant ever has two unsettled requests
at the same time. -/
theorem control_prevents_double_submit (eng : Engine) (apiBaseUrl : String)
    (events : List Event) (σ : Sys)
    (hrun : run controlEnabledOneVariant eng apiBaseUrl events Sys.initial = some σ)
    (key : ModelKey) : unsettled σ key ≤ 1 := by
  have hinv := run_keeps_atMostOneMarked controlEnabledOneVariant eng apiBaseUrl
    controlEnabledOneVariant_serial events Sys.initial σ hrun rfl
  obtain ⟨app, pending⟩ := σ
  match pending, hinv with
  | [], _ => simp [unsettled]
  | [q], _ =>
    by_cases hq : q.key = key <;> simp [unsettled, hq]
  | _ :: _ :: _, hinv => simp [atMostOneMarked] at hinv

theorem control_prevents_double_submit_witness :
    unsettled
      ⟨(setActiveModelKey (handleSubmitStart "http://127.0.0.1:8000" AppState.initial).1 .ieg),
       [(handleSubmitStart "http://127.0.0.1:8000" AppState.initial).2]⟩ .aiddata ≤ 1 :=
  control_prevents_double_submit v8 "http://127.0.0.1:8000" [.submit, .select .ieg]
    ⟨(setActiveModelKey (handleSubmitStart "http://127.0.0.1:8000" AppState.initial).1 .ieg),
     [(handleSubmitStart "http://127.0.0.1:8000" AppState.initial).2]⟩
    rfl .aiddata

/-- C19 (as stated) fails: with the submit control as the only trigger, a
submission on aiddata, a switch to ieg, a submission there, a switch back and
a second submission leave two unsettled requests of aiddata. -/
theorem control_allows_second_request :
    (run controlEnabled v8 "http://127.0.0.1:8000"
        [.submit, .select .ieg, .submit, .select .aiddata, .submit] Sys.initial).map
      (fun σ => unsettled σ .aiddata) = some 2 := by
  rfl

/-! ## Malformed numbers and falsy errors -/

theorem hasHexPrefix_ten (cs : List Char) : hasHexPrefix 10 cs = false := by
  unfold hasHexPrefix
  split <;> simp

theorem parseInt_no_digit (s : String)
    (h : (takeDigits 10 (takeSign (trimStart s.data)).2).1 = []) :
    parseInt s 10 = .nan := by
  unfold parseInt
  simp [hasHexPrefix_ten, h]

/-- C21 (as stated) fails on strings that start with digits: "12.5", which a
number input accepts, is prepared into 12, and "20x0" into 20. -/
theorem ieg_payload_approval_fy_prefix :
    objGet (preparePayload .ieg (objSet initialIegForm "approval_fy" (.str "12.5")))
      "approval_fy" = some (.num (.fin false 12 0)) ∧
    objGet (preparePayload .ieg (objSet initialIegForm "approval_fy" (.str "20x0")))
      "approval_fy" = some (.num (.fin false 20 0)) := by
  constructor <;> rfl

theorem checkResponse_truthy_error (eng : Engine) (status : Nat)
    (fields : List (String × JsVal)) (v : JsVal)
    (hv : objGet fields "error" = some v) (ht : v.truthy = true) :
    ∃ m, checkResponse eng status (.obj fields) = .error m := by
  unfold checkResponse
  cases hm : errorMessage eng (.obj fields) status with
  | ok m => cases resOk status <;> simp [getProp, hv, truthy, ht]
  | error m => cases resOk status <;> simp [getProp, hv, truthy, ht]

/-- C22 (as amended): for every response whose decoded body has an error
field with a truthy value (a non-empty string, for one), whatever the HTTP
status, the submission settles to Failed: errors[V] holds a non-empty message
and predictions[V] stays null. -/
theorem truthy_error_field_fails (eng : Engine) (apiBaseUrl : String) (s : AppState)
    (status : Nat) (fields : List (String × JsVal)) (v : JsVal)
    (hv : objGet fields "error" = some v) (ht : v.truthy = true) :
    (∃ message,
      (handleSubmit eng apiBaseUrl s (.response status (.ok (.obj fields)))).errors.get
        s.activeModelKey = some message ∧ message ≠ "") ∧
    (handleSubmit eng apiBaseUrl s (.response status (.ok (.obj fields)))).predictions.get
      s.activeModelKey = .null := by
  obtain ⟨m, hm⟩ := checkResponse_truthy_error eng status fields v hv ht
  have hs := settle_error eng apiBaseUrl s (.response status (.ok (.obj fields))) m hm
  exact ⟨⟨_, hs.1, fallback_ne_empty m⟩, hs.2.1⟩

theorem truthy_error_field_fails_witness :
    (handleSubmit v8 "http://127.0.0.1:8000" busyState
        (.response 200 (.ok (.obj [("error", .bool true)])))).predictions.get .ieg = .null :=
  (truthy_error_field_fails v8 "http://127.0.0.1:8000" busyState 200
    [("error", .bool true)] (.bool true) rfl rfl).2

/-- C22 (as stated) fails on an empty error string: with status 200 the body
is stored as the result and no error is set. -/
theorem empty_error_field_succeeds :
    (handleSubmit v8 "http://127.0.0.1:8000" AppState.initial
        (.response 200 (.ok (.obj [("error", .str "")])))).predictions.get .aiddata
      = .obj [("error", .str "")] ∧
    (handleSubmit v8 "http://127.0.0.1:8000" AppState.initial
        (.response 200 (.ok (.obj [("error", .str "")])))).errors.get .aiddata = none := by
  constructor <;> rfl

/-- C25: for every AidData form whose commitment_amount_usd_constant is the
empty string or absent, the payload has the key commitment_amount_usd_constant
with the number 0, while an empty or absent total_project_cost becomes
null. -/
theorem aiddata_empty_amount_is_zero (form : FormState) :
    ((objGet form "commitment_amount_usd_constant" = none ∨
      objGet form "commitment_amount_usd_constant" = some (.str "")) →
      objGet (preparePayload .aiddata form) "commitment_amount_usd_constant"
        = some (.num (.fin false 0 0))) ∧
    ((objGet form "total_project_cost" = none ∨
      objGet form "total_project_cost" = some (.str "")) →
      objGet (preparePayload .aiddata form) "total_project_cost" = some .null) := by
  have h0 : parseFloat "0" = .fin false 0 0 := by decide
  constructor
  · intro h
    rw [aiddata_amount]
    rcases h with h | h <;> simp [h, FormVal.truthy, h0]
  · intro h
    rw [aiddata_cost]
    rcases h with h | h <;> simp [h, FormVal.truthy]

theorem aiddata_empty_amount_is_zero_witness :
    objGet (preparePayload .aiddata initialAidForm) "commitment_amount_usd_constant"
        = some (.num (.fin false 0 0)) ∧
    objGet (preparePayload .aiddata []) "commitment_amount_usd_constant"
        = some (.num (.fin false 0 0)) ∧
    objGet (preparePayload .aiddata initialAidForm) "total_project_cost" = some .null :=
  ⟨(aiddata_empty_amount_is_zero initialAidForm).1 (Or.inr (by decide)),
   (aiddata_empty_amount_is_zero []).1 (Or.inl (by decide)),
   (aiddata_empty_amount_is_zero initialAidForm).2 (Or.inr (by decide))⟩

/-! ## Badges and the result panel -/

theorem badgeColors_str (eng : Engine) (value : String) :
    badgeColors eng (some (.str value))
      = .ok (match objGet colors value with
             | some c => c
             | none =>
               if value ∈ objectPrototypeKeys then ⟨none, none⟩
               else ⟨some "#dbeafe", some "#1e40af"⟩) := by
  simp only [badgeColors, toPropertyKey, JsVal.toJsString]
  cases objGet colors value with
  | some c => rfl
  | none => by_cases h : value ∈ objectPrototypeKeys <;> simp [h]

/-- Where the lookup of `RiskBadge` does what is intended: each of the four
enumeration values has its own entry, and every other string that is not the
name of a member of `Object.prototype` gets the on_time entry. -/
theorem badgeColors_own_or_fallback (eng : Engine) (value : String) :
    badgeColors eng (some (.str "early")) = .ok ⟨some "#d1fae5", some "#065f46"⟩ ∧
    badgeColors eng (some (.str "on_time")) = .ok ⟨some "#dbeafe", some "#1e40af"⟩ ∧
    badgeColors eng (some (.str "delayed")) = .ok ⟨some "#fef9c3", some "#92400e"⟩ ∧
    badgeColors eng (some (.str "significantly_delayed"))
      = .ok ⟨some "#fee2e2", some "#991b1b"⟩ ∧
    (value ≠ "early" → value ≠ "on_time" → value ≠ "delayed" →
      value ≠ "significantly_delayed" → value ∉ objectPrototypeKeys →
      badgeColors eng (some (.str value)) = badgeColors eng (some (.str "on_time"))) := by
  refine ⟨rfl, rfl, rfl, rfl, ?_⟩
  intro h1 h2 h3 h4 h5
  rw [badgeColors_str, badgeColors_str]
  have hnone : objGet colors value = none := by
    simp [colors, objGet, Ne.symm h1, Ne.symm h2, Ne.symm h3, Ne.symm h4]
  rw [hnone]
  simp [h5]
  rfl

/-- C23 at its failing input: for the classification "constructor", a string
outside the enumeration, `colors[value]` finds the member that every object
inherits, so the lookup yields neither background nor text colour instead of
the on_time entry, and the badge is rendered without them. -/
theorem badge_inherited_member_not_fallback :
    badgeColors v8 (some (.str "constructor")) = .ok ⟨none, none⟩ ∧
    badgeColors v8 (some (.str "on_time")) = .ok ⟨some "#dbeafe", some "#1e40af"⟩ ∧
    RiskBadge v8 "Z-score" (some (.str "constructor"))
      = .ok (.el "div" []
          [.el "span" [] [.text "Z-score", .text ": ", .text "constructor"]]) ∧
    RiskBadge v8 "Z-score" (some (.str "on_time"))
      = .ok (.el "div" []
          [.el "span" [("background", "#dbeafe"), ("color", "#1e40af")]
            [.text "Z-score", .text ": ", .text "on_time"]]) := by
  refine ⟨rfl, rfl, rfl, rfl⟩

theorem riskBadge_str (eng : Engine) (label value : String) :
    RiskBadge eng label (some (.str value))
      = .ok (.el "div" []
          [.el "span"
            (styleOf (match objGet colors value with
              | some c => c
              | none =>
                if value ∈ objectPrototypeKeys then ⟨none, none⟩
                else ⟨some "#dbeafe", some "#1e40af"⟩))
            [.text label, .text ": ", .text value]]) := by
  simp only [RiskBadge, badgeColors_str, renderChild, renderValue]

/-- C24 (as amended): for the active variant, when no result is stored (the
prediction is null) the result panel is the placeholder prompt alone; when the
stored result is an object carrying a predicted_end_date string, a
residual_estimate number and a delay_classification object with zscore,
percentile and iqr strings, the panel is the result view alone: it has no
placeholder paragraph, it shows the date and the residual followed by " days",
and it has exactly the three badges Z-score, Percentile, IQR in that order. -/
theorem result_panel_placeholder_or_result (eng : Engine) (s : AppState)
    (fields cls : List (String × JsVal)) (date : String) (residual : JsNum)
    (z p i : String) :
    (s.predictions.get s.activeModelKey = .null →
      resultPanel eng (s.predictions.get s.activeModelKey) = .ok [placeholder]) ∧
    (s.predictions.get s.activeModelKey = .obj fields →
      objGet fields "predicted_end_date" = some (.str date) →
      objGet fields "residual_estimate" = some (.num residual) →
      objGet fields "delay_classification" = some (.obj cls) →
      objGet cls "zscore" = some (.str z) →
      objGet cls "percentile" = some (.str p) →
      objGet cls "iqr" = some (.str i) →
      ∃ view, resultPanel eng (s.predictions.get s.activeModelKey) = .ok [view] ∧
        Html.textsOf "p" view = [] ∧
        Html.textsOf "strong" view = [date, residual.toJsString ++ " days"] ∧
        Html.textsOf "span" view
          = ["Z-score: " ++ z, "Percentile: " ++ p, "IQR: " ++ i]) := by
  constructor
  · intro h
    rw [h]
    rfl
  · intro h hd hr hc hz hp hi
    rw [h]
    simp only [resultPanel, JsVal.truthy, if_true, resultView, readProp, getProp, hd, hr, hc,
      hz, hp, hi, renderChild, renderValue, riskBadge_str, bind, Except.bind, pure, Except.pure]
    refine ⟨_, rfl, ?_, ?_, ?_⟩
    · simp [Html.textsOf, Html.textsOfAll, guidance]
    · simp [Html.textsOf, Html.textsOfAll, Html.textContentAll, Html.textContent, guidance]
    · simp only [Html.textsOf, Html.textsOfAll, Html.textContentAll, Html.textContent,
        guidance]
      simp
      refine ⟨?_, ?_, ?_⟩ <;> rw [← String.append_assoc] <;> rfl

theorem result_panel_placeholder_or_result_witness :
    resultPanel v8 (AppState.initial.predictions.get AppState.initial.activeModelKey)
      = .ok [placeholder] ∧
    ∃ view, resultPanel v8 (busyState.predictions.get busyState.activeModelKey) = .ok [view] ∧
      Html.textsOf "p" view = [] ∧
      Html.textsOf "strong" view = ["2026-01-01", (JsNum.fin true 15 0).toJsString ++ " days"] ∧
      Html.textsOf "span" view
        = ["Z-score: " ++ "delayed", "Percentile: " ++ "on_time", "IQR: " ++ "delayed"] :=
  ⟨(result_panel_placeholder_or_result v8 AppState.initial [] [] "" .nan "" "" "").1 rfl,
   (result_panel_placeholder_or_result v8 busyState _ _ "2026-01-01" (.fin true 15 0)
      "delayed" "on_time" "delayed").2 rfl rfl rfl rfl rfl rfl rfl⟩

/-- C24 (as stated) fails on a stored result without delay_classification: a
response with status 200 and the body of an empty object is stored as the
result, and the render of the panel then throws, showing neither the
placeholder nor the result; a stored 0 gives the placeholder followed by the
text "0". -/
theorem result_panel_neither_or_both :
    (handleSubmit v8 "http://127.0.0.1:8000" AppState.initial
        (.response 200 (.ok (.obj [])))).predictions.get .aiddata = .obj [] ∧
    resultPanel v8 (.obj [])
      = .error (.thrown "Cannot read properties of undefined (reading 'zscore')") ∧
    (handleSubmit v8 "http://127.0.0.1:8000" AppState.initial
        (.response 200 (.ok (.num (.fin false 0 0))))).predictions.get .aiddata
      = .num (.fin false 0 0) ∧
    resultPanel v8 (.num (.fin false 0 0)) = .ok [placeholder, .text "0"] := by
  refine ⟨rfl, rfl, rfl, rfl⟩

/-! ## Result and error of a variant -/

theorem filter_eraseIdx_length (f : Pending → Bool) :
    ∀ (l : List Pending) (i : Nat) (p : Pending), l[i]? = some p →
      ((l.eraseIdx i).filter f).length + (if f p then 1 else 0) = (l.filter f).length := by
  intro l
  induction l with
  | nil => intro i p h; simp at h
  | cons q rest ih =>
    intro i p h
    cases i with
    | zero =>
      simp only [List.getElem?_cons_zero, Option.some.injEq] at h
      subst h
      by_cases hq : f q = true <;> simp [List.filter, hq]
    | succ j =>
      simp only [List.getElem?_cons_succ] at h
      have := ih j p h
      by_cases hq : f q = true <;> simp [List.filter, hq] <;> omega

theorem unsettled_settle (eng : Engine) (app : AppState) (pending : List Pending) (i : Nat)
    (o : FetchOutcome) (p : Pending) (h : pending[i]? = some p) (key : ModelKey) :
    unsettled ⟨handleSubmitSettle eng p o app, pending.eraseIdx i⟩ key
      + (if p.key = key then 1 else 0) = unsettled ⟨app, pending⟩ key := by
  have := filter_eraseIdx_length (fun q => decide (q.key = key)) pending i p h
  simpa [unsettled] using this

theorem unsettled_submit (apiBaseUrl : String) (app : AppState) (pending : List Pending)
    (key : ModelKey) :
    unsettled ⟨(handleSubmitStart apiBaseUrl app).1,
        pending ++ [(handleSubmitStart apiBaseUrl app).2]⟩ key
      = unsettled ⟨app, pending⟩ key + (if app.activeModelKey = key then 1 else 0) := by
  by_cases hk : app.activeModelKey = key <;>
    simp [unsettled, List.filter_append, handleSubmitStart, hk, List.filter]

theorem step_keeps_exclusive (eng : Engine) (apiBaseUrl : String) (σ next : Sys) (ev : Event)
    (hstep : step anyTime eng apiBaseUrl σ ev = some next)
    (hord : keepsApart σ ev = true)
    (hinv : ∀ key, Exclusive σ key) : ∀ key, Exclusive next key := by
  obtain ⟨app, pending⟩ := σ
  intro key
  have hk := hinv key
  cases ev with
  | change e =>
    simp only [step, Option.some.injEq] at hstep
    subst hstep
    exact hk
  | select k =>
    simp only [step, Option.some.injEq] at hstep
    subst hstep
    exact hk
  | reset =>
    simp only [step, Option.some.injEq] at hstep
    subst hstep
    simp only [keepsApart, decide_eq_true_eq] at hord
    by_cases hkey : key = app.activeModelKey
    · subst hkey
      refine ⟨hk.1, fun _ => ⟨PerModel.get_set_same _ _ _, PerModel.get_set_same _ _ _⟩,
        Or.inl (PerModel.get_set_same _ _ _)⟩
    · have h1 : (handleReset app).predictions.get key = app.predictions.get key :=
        PerModel.get_set_ne _ _ _ _ hkey
      have h2 : (handleReset app).errors.get key = app.errors.get key :=
        PerModel.get_set_ne _ _ _ _ hkey
      unfold Exclusive
      simp only [h1, h2]
      exact hk
  | submit =>
    simp only [step, anyTime, if_true, Option.some.injEq] at hstep
    subst hstep
    simp only [keepsApart, decide_eq_true_eq] at hord
    have hu := unsettled_submit apiBaseUrl app pending key
    by_cases hkey : key = app.activeModelKey
    · subst hkey
      have hp : (handleSubmitStart apiBaseUrl app).1.predictions.get app.activeModelKey
          = .null := PerModel.get_set_same _ _ _
      have he : (handleSubmitStart apiBaseUrl app).1.errors.get app.activeModelKey
          = none := PerModel.get_set_same _ _ _
      simp only [if_true] at hu
      refine ⟨by omega, fun _ => ⟨hp, he⟩, Or.inl hp⟩
    · have h1 : (handleSubmitStart apiBaseUrl app).1.predictions.get key
          = app.predictions.get key := PerModel.get_set_ne _ _ _ _ hkey
      have h2 : (handleSubmitStart apiBaseUrl app).1.errors.get key = app.errors.get key :=
        PerModel.get_set_ne _ _ _ _ hkey
      have hne : ¬ app.activeModelKey = key := fun h => hkey h.symm
      simp only [hne, if_false, Nat.add_zero] at hu
      unfold Exclusive
      simp only [h1, h2, hu]
      exact hk
  | settle i o =>
    cases hp : pending[i]? with
    | none => simp [step, hp] at hstep
    | some p =>
      simp only [step, hp, Option.some.injEq] at hstep
      subst hstep
      have hu := unsettled_settle eng app pending i o p hp key
      by_cases hkey : key = p.key
      · subst hkey
        simp only [if_true] at hu
        have hone : unsettled ⟨app, pending⟩ p.key = 1 := by have := hk.1; omega
        have hnull := hk.2.1 (by omega)
        have hzero : unsettled ⟨handleSubmitSettle eng p o app, pending.eraseIdx i⟩ p.key = 0 := by
          omega
        have hw := settle_writes_key eng p o app
        refine ⟨by omega, fun hpos => absurd hpos (by omega), ?_⟩
        cases ht : tryBlock eng o with
        | ok data =>
          right
          show (handleSubmitSettle eng p o app).errors.get p.key = none
          rw [(hw.1 data ht).2]
          exact hnull.2
        | error m =>
          left
          show (handleSubmitSettle eng p o app).predictions.get p.key = .null
          rw [(hw.2 m ht).2]
          exact hnull.1
      · have hko := settle_keeps_other eng p o app key hkey
        have hne : ¬ p.key = key := fun h => hkey h.symm
        simp only [hne, if_false, Nat.add_zero] at hu
        unfold Exclusive
        show unsettled ⟨handleSubmitSettle eng p o app, pending.eraseIdx i⟩ key ≤ 1 ∧
          (0 < unsettled ⟨handleSubmitSettle eng p o app, pending.eraseIdx i⟩ key →
            (handleSubmitSettle eng p o app).predictions.get key = .null ∧
            (handleSubmitSettle eng p o app).errors.get key = none) ∧
          ((handleSubmitSettle eng p o app).predictions.get key = .null ∨
            (handleSubmitSettle eng p o app).errors.get key = none)
        rw [hko.2.1, hko.2.2.1, hu]
        exact hk

theorem run_keeps_exclusive (eng : Engine) (apiBaseUrl : String) (events : List Event) :
    ∀ σ final, run anyTime eng apiBaseUrl events σ = some final →
      respectsOrder eng apiBaseUrl events σ = true →
      (∀ key, Exclusive σ key) → ∀ key, Exclusive final key := by
  induction events with
  | nil =>
    intro σ final hrun _ hinv
    simp only [run, Option.some.injEq] at hrun
    subst hrun
    exact hinv
  | cons ev rest ih =>
    intro σ final hrun hord hinv
    simp only [run] at hrun
    simp only [respectsOrder, Bool.and_eq_true] at hord
    cases hs : step anyTime eng apiBaseUrl σ ev with
    | none => simp [hs] at hrun
    | some next =>
      rw [hs] at hrun
      have hrest := hord.2
      rw [hs] at hrest
      exact ih next final hrun hrest
        (step_keeps_exclusive eng apiBaseUrl σ next ev hs hord.1 hinv)

theorem unsettled_pos_of_pending (σ : Sys) (i : Nat) (p : Pending)
    (h : σ.pending[i]? = some p) : 0 < unsettled σ p.key := by
  have := filter_eraseIdx_length (fun q => decide (q.key = p.key)) σ.pending i p h
  simp only [decide_True, if_true] at this
  unfold unsettled
  omega

/-- C26: in every run in which every submission and every reset on a variant
happens only when that variant has no unsettled request, for every variant V
the result predictions[V] and the error errors[V] are never both non-null;
while a request of V is unsettled both are null; and when that request
settles, a success leaves only the result set and a failure only the error. -/
theorem result_and_error_exclusive (eng : Engine) (apiBaseUrl : String)
    (events : List Event) (σ : Sys)
    (hrun : run anyTime eng apiBaseUrl events Sys.initial = some σ)
    (hord : respectsOrder eng apiBaseUrl events Sys.initial = true) (key : ModelKey) :
    (σ.app.predictions.get key = .null ∨ σ.app.errors.get key = none) ∧
    (0 < unsettled σ key →
      σ.app.predictions.get key = .null ∧ σ.app.errors.get key = none) ∧
    (∀ (i : Nat) (p : Pending) (o : FetchOutcome), σ.pending[i]? = some p →
      (∀ data, tryBlock eng o = .ok data →
        (handleSubmitSettle eng p o σ.app).predictions.get p.key = data ∧
        (handleSubmitSettle eng p o σ.app).errors.get p.key = none) ∧
      (∀ m, tryBlock eng o = .error m →
        (handleSubmitSettle eng p o σ.app).errors.get p.key
          = some (if m ≠ "" then m else "Something went wrong") ∧
        (handleSubmitSettle eng p o σ.app).predictions.get p.key = .null)) := by
  have hinit : ∀ k, Exclusive Sys.initial k := by
    intro k
    cases k <;> exact ⟨by decide, fun _ => ⟨rfl, rfl⟩, Or.inl rfl⟩
  have hall := run_keeps_exclusive eng apiBaseUrl events Sys.initial σ hrun hord hinit
  refine ⟨(hall key).2.2, (hall key).2.1, ?_⟩
  intro i p o hp
  have hnull := (hall p.key).2.1 (unsettled_pos_of_pending σ i p hp)
  have hw := settle_writes_key eng p o σ.app
  constructor
  · intro data ht
    refine ⟨(hw.1 data ht).1, ?_⟩
    rw [(hw.1 data ht).2]
    exact hnull.2
  · intro m ht
    refine ⟨(hw.2 m ht).1, ?_⟩
    rw [(hw.2 m ht).2]
    exact hnull.1

theorem result_and_error_exclusive_witness :
    (handleSubmit v8 "http://127.0.0.1:8000"
        (handleSubmit v8 "http://127.0.0.1:8000" AppState.initial (.rejected "Failed to fetch"))
        (.response 200 (.ok exampleBody))).predictions.get .aiddata = .null ∨
    (handleSubmit v8 "http://127.0.0.1:8000"
        (handleSubmit v8 "http://127.0.0.1:8000" AppState.initial (.rejected "Failed to fetch"))
        (.response 200 (.ok exampleBody))).errors.get .aiddata = none :=
  (result_and_error_exclusive v8 "http://127.0.0.1:8000"
    [.submit, .settle 0 (.rejected "Failed to fetch"), .submit,
     .settle 0 (.response 200 (.ok exampleBody))]
    ⟨handleSubmit v8 "http://127.0.0.1:8000"
        (handleSubmit v8 "http://127.0.0.1:8000" AppState.initial (.rejected "Failed to fetch"))
        (.response 200 (.ok exampleBody)), []⟩
    rfl rfl .aiddata).1

/-! ## Forms the page can reach -/

theorem objGet_mem {α : Type} (l : List (String × α)) (k : String) (v : α)
    (h : objGet l k = some v) : (k, v) ∈ l := by
  induction l with
  | nil => simp [objGet] at h
  | cons e rest ih =>
    obtain ⟨k', v'⟩ := e
    by_cases hk : k' = k
    · simp only [objGet, hk, if_true, Option.some.injEq] at h
      subst hk; subst h
      exact List.mem_cons_self _ _
    · simp only [objGet, hk, if_false] at h
      exact List.mem_cons_of_mem _ (ih h)

theorem initialForm_onlyFlagIsBoolean (key : ModelKey) :
    OnlyFlagIsBoolean (initialForm key) := by
  intro k b h
  have hmem := objGet_mem _ _ _ h
  have hall : ∀ entry ∈ initialForm key, ∀ c, entry.2 = FormVal.bool c →
      entry.1 = "is_multi_country" ∧ c = false := by
    cases key <;> decide
  exact hall (k, .bool b) hmem b rfl

theorem renderedFields_not_checkbox (key : ModelKey) :
    ∀ field ∈ renderedFields key, field.2 ≠ "checkbox" := by
  cases key <;> decide

theorem step_keeps_onlyFlagIsBoolean (eng : Engine) (apiBaseUrl : String) (σ next : Sys)
    (ev : Event) (hstep : step controlEnabled eng apiBaseUrl σ ev = some next)
    (hpage : raisedByPage σ ev = true)
    (hinv : ∀ key, OnlyFlagIsBoolean (σ.app.forms.get key)) :
    ∀ key, OnlyFlagIsBoolean (next.app.forms.get key) := by
  intro key
  cases ev with
  | change e =>
    simp only [step, Option.some.injEq] at hstep
    subst hstep
    simp only [raisedByPage, decide_eq_true_eq] at hpage
    have hty : e.type ≠ "checkbox" :=
      renderedFields_not_checkbox σ.app.activeModelKey (e.name, e.type) hpage
    by_cases hkey : key = σ.app.activeModelKey
    · subst hkey
      intro k b h
      simp only [handleChange, PerModel.get_set_same, hty, if_false] at h
      by_cases hk : k = e.name
      · rw [hk, objGet_objSet_same] at h
        cases h
      · rw [objGet_objSet_ne _ _ _ _ hk] at h
        exact hinv σ.app.activeModelKey k b h
    · have : (handleChange σ.app e).forms.get key = σ.app.forms.get key := by
        simp only [handleChange]
        exact PerModel.get_set_ne _ _ _ _ hkey
      show OnlyFlagIsBoolean ((handleChange σ.app e).forms.get key)
      rw [this]
      exact hinv key
  | select k =>
    simp only [step, Option.some.injEq] at hstep
    subst hstep
    exact hinv key
  | reset =>
    simp only [step, Option.some.injEq] at hstep
    subst hstep
    by_cases hkey : key = σ.app.activeModelKey
    · subst hkey
      show OnlyFlagIsBoolean ((handleReset σ.app).forms.get σ.app.activeModelKey)
      have : (handleReset σ.app).forms.get σ.app.activeModelKey
          = initialForm σ.app.activeModelKey := PerModel.get_set_same _ _ _
      rw [this]
      exact initialForm_onlyFlagIsBoolean _
    · have : (handleReset σ.app).forms.get key = σ.app.forms.get key :=
        PerModel.get_set_ne _ _ _ _ hkey
      show OnlyFlagIsBoolean ((handleReset σ.app).forms.get key)
      rw [this]
      exact hinv key
  | submit =>
    by_cases hguard : controlEnabled σ = true
    · simp only [step, hguard, if_true, Option.some.injEq] at hstep
      subst hstep
      exact hinv key
    · simp [step, hguard] at hstep
  | settle i o =>
    cases hp : σ.pending[i]? with
    | none => simp [step, hp] at hstep
    | some p =>
      simp only [step, hp, Option.some.injEq] at hstep
      subst hstep
      have : (handleSubmitSettle eng p o σ.app).forms = σ.app.forms := by
        unfold handleSubmitSettle
        cases tryBlock eng o <;> rfl
      show OnlyFlagIsBoolean ((handleSubmitSettle eng p o σ.app).forms.get key)
      rw [this]
      exact hinv key

theorem pageRun_keeps_onlyFlagIsBoolean (eng : Engine) (apiBaseUrl : String)
    (events : List Event) :
    ∀ σ final, run controlEnabled eng apiBaseUrl events σ = some final →
      pageRun eng apiBaseUrl events σ = true →
      (∀ key, OnlyFlagIsBoolean (σ.app.forms.get key)) →
      ∀ key, OnlyFlagIsBoolean (final.app.forms.get key) := by
  induction events with
  | nil =>
    intro σ final hrun _ hinv
    simp only [run, Option.some.injEq] at hrun
    subst hrun
    exact hinv
  | cons ev rest ih =>
    intro σ final hrun hpage hinv
    simp only [run] at hrun
    simp only [pageRun, Bool.and_eq_true] at hpage
    cases hs : step controlEnabled eng apiBaseUrl σ ev with
    | none => simp [hs] at hrun
    | some next =>
      rw [hs] at hrun
      have hrest := hpage.2
      rw [hs] at hrest
      exact ih next final hrun hrest
        (step_keeps_onlyFlagIsBoolean eng apiBaseUrl σ next ev hs hpage.1 hinv)

/-- C3: on every form the page can reach (any run of events raised by its
rendered inputs, switcher, reset and submit controls, and of settlements), for
each variant the payload has the key of the optional numeric field
(total_project_cost for AidData, approval_fy for IEG), and its value is null if
and only if the form's field is the empty string or absent. -/
theorem optional_numeric_null_iff_empty (eng : Engine) (apiBaseUrl : String)
    (events : List Event) (σ : Sys)
    (hrun : run controlEnabled eng apiBaseUrl events Sys.initial = some σ)
    (hpage : pageRun eng apiBaseUrl events Sys.initial = true) :
    (∃ v, objGet (preparePayload .aiddata (σ.app.forms.get .aiddata)) "total_project_cost"
        = some v ∧
      (v = .null ↔
        (objGet (σ.app.forms.get .aiddata) "total_project_cost" = some (.str "") ∨
         objGet (σ.app.forms.get .aiddata) "total_project_cost" = none))) ∧
    (∃ v, objGet (preparePayload .ieg (σ.app.forms.get .ieg)) "approval_fy" = some v ∧
      (v = .null ↔
        (objGet (σ.app.forms.get .ieg) "approval_fy" = some (.str "") ∨
         objGet (σ.app.forms.get .ieg) "approval_fy" = none))) := by
  have hinv := pageRun_keeps_onlyFlagIsBoolean eng apiBaseUrl events Sys.initial σ hrun hpage
    (fun key => by
      cases key
      · exact initialForm_onlyFlagIsBoolean .aiddata
      · exact initialForm_onlyFlagIsBoolean .ieg)
  obtain ⟨⟨v, hv, hiff⟩, ⟨w, hw, hiffw⟩⟩ :=
    And.intro (optional_numeric_null_iff_falsy (σ.app.forms.get .aiddata)).1
      (optional_numeric_null_iff_falsy (σ.app.forms.get .ieg)).2
  refine ⟨⟨v, hv, ?_⟩, ⟨w, hw, ?_⟩⟩
  · rw [hiff]
    constructor
    · rintro (h | h | h)
      · exact Or.inr h
      · exact Or.inl h
      · exact absurd (hinv .aiddata _ _ h).1 (by decide)
    · rintro (h | h)
      · exact Or.inr (Or.inl h)
      · exact Or.inl h
  · rw [hiffw]
    constructor
    · rintro (h | h | h)
      · exact Or.inr h
      · exact Or.inl h
      · exact absurd (hinv .ieg _ _ h).1 (by decide)
    · rintro (h | h)
      · exact Or.inr (Or.inl h)
      · exact Or.inl h

theorem optional_numeric_null_iff_empty_witness :
    (∃ v, objGet (preparePayload .aiddata
        ((handleChange AppState.initial ⟨"total_project_cost", "1200", "number", false⟩).forms.get
          .aiddata)) "total_project_cost" = some v ∧
      (v = .null ↔
        (objGet ((handleChange AppState.initial
            ⟨"total_project_cost", "1200", "number", false⟩).forms.get .aiddata)
            "total_project_cost" = some (.str "") ∨
         objGet ((handleChange AppState.initial
            ⟨"total_project_cost", "1200", "number", false⟩).forms.get .aiddata)
            "total_project_cost" = none))) :=
  (optional_numeric_null_iff_empty v8 "http://127.0.0.1:8000"
    [.change ⟨"total_project_cost", "1200", "number", false⟩]
    ⟨handleChange AppState.initial ⟨"total_project_cost", "1200", "number", false⟩, []⟩
    rfl rfl).1

/-! ## Settlements of every submission -/

theorem ordered_pending_cells_null (eng : Engine) (apiBaseUrl : String)
    (events : List Event) (σ : Sys)
    (hrun : run anyTime eng apiBaseUrl events Sys.initial = some σ)
    (hord : respectsOrder eng apiBaseUrl events Sys.initial = true)
    (i : Nat) (p : Pending) (hp : σ.pending[i]? = some p) :
    σ.app.predictions.get p.key = .null ∧ σ.app.errors.get p.key = none := by
  have hinit : ∀ k, Exclusive Sys.initial k := by
    intro k
    cases k <;> exact ⟨by decide, fun _ => ⟨rfl, rfl⟩, Or.inl rfl⟩
  have hall := run_keeps_exclusive eng apiBaseUrl events Sys.initial σ hrun hord hinit
  exact (hall p.key).2.1 (unsettled_pos_of_pending σ i p hp)

theorem tryBlock_success (eng : Engine) (status : Nat) (data : JsVal)
    (hok : resOk status = true) (hnull : data ≠ .null)
    (hno : ∀ fields, data = .obj fields → objGet fields "error" = none) :
    tryBlock eng (.response status (.ok data)) = .ok data := by
  simp [tryBlock, checkResponse, hok, getProp_no_error eng data hnull hno, truthy]

theorem tryBlock_failure (eng : Engine) (status : Nat) (body : Except String JsVal)
    (h : resOk status = false ∨
      ∃ fields m, body = .ok (.obj fields) ∧ objGet fields "error" = some (.str m) ∧ m ≠ "") :
    ∃ m, tryBlock eng (.response status body) = .error m := by
  cases body with
  | error m => exact ⟨m, rfl⟩
  | ok data =>
    rcases h with h | ⟨fields, m, hb, hf, hm⟩
    · exact checkResponse_not_ok eng status data h
    · cases hb
      exact ⟨m, checkResponse_error_string eng status fields m hm hf⟩

/-- C6 (as amended): for every submission whose transport returns a
success-range status and a decoded body that is not null and has no error
field, the settlement stores exactly the decoded body in predictions[V], leaves
the errors as they are and clears the in-flight marker, on whatever state it
resumes; in every run in which each submission and reset on a variant happens
only when that variant has no unsettled request, errors[V] is null as well, so
the variant is in Success.  For the body of the worked example
(predicted_end_date "2026-01-01", residual_estimate -15) the result panel of
the stored result shows "2026-01-01" and "-15 days". -/
theorem success_stores_body (eng : Engine) (p : Pending) (status : Nat) (data : JsVal)
    (hok : resOk status = true) (hnull : data ≠ .null)
    (hno : ∀ fields, data = .obj fields → objGet fields "error" = none) :
    (∀ s : AppState,
      (handleSubmitSettle eng p (.response status (.ok data)) s).predictions.get p.key = data ∧
      (handleSubmitSettle eng p (.response status (.ok data)) s).errors = s.errors ∧
      (handleSubmitSettle eng p (.response status (.ok data)) s).loadingModel = none) ∧
    (∀ (apiBaseUrl : String) (events : List Event) (σ : Sys) (i : Nat),
      run anyTime eng apiBaseUrl events Sys.initial = some σ →
      respectsOrder eng apiBaseUrl events Sys.initial = true →
      σ.pending[i]? = some p →
      (handleSubmitSettle eng p (.response status (.ok data)) σ.app).errors.get p.key
        = none) ∧
    (∀ s : AppState,
      (resultPanel eng
        ((handleSubmitSettle eng p (.response 200 (.ok exampleBody)) s).predictions.get
          p.key)).map (Html.textsOfAll "strong") = .ok ["2026-01-01", "-15 days"]) := by
  have ht := tryBlock_success eng status data hok hnull hno
  refine ⟨?_, ?_, ?_⟩
  · intro s
    have hw := (settle_writes_key eng p (.response status (.ok data)) s).1 data ht
    exact ⟨hw.1, hw.2, settle_loading_none eng p _ s⟩
  · intro apiBaseUrl events σ i hrun hord hp
    have hw := (settle_writes_key eng p (.response status (.ok data)) σ.app).1 data ht
    rw [hw.2]
    exact (ordered_pending_cells_null eng apiBaseUrl events σ hrun hord i p hp).2
  · intro s
    have hw := (settle_writes_key eng p (.response 200 (.ok exampleBody)) s).1 exampleBody rfl
    rw [hw.1]
    rfl

theorem success_stores_body_witness :
    (handleSubmitSettle v8 (handleSubmitStart "http://127.0.0.1:8000" AppState.initial).2
      (.response 200 (.ok exampleBody))
      (handleSubmitStart "http://127.0.0.1:8000" AppState.initial).1).errors.get
        (handleSubmitStart "http://127.0.0.1:8000" AppState.initial).2.key = none :=
  (success_stores_body v8 (handleSubmitStart "http://127.0.0.1:8000" AppState.initial).2
    200 exampleBody (by decide) (by simp [exampleBody])
    (by intro fields hf; cases hf; rfl)).2.1
    "http://127.0.0.1:8000" [.submit]
    ⟨(handleSubmitStart "http://127.0.0.1:8000" AppState.initial).1,
     [(handleSubmitStart "http://127.0.0.1:8000" AppState.initial).2]⟩ 0 rfl rfl rfl

/-- C6 (as stated) fails in two ways.  On the body `null`, which has no error
field, reading `data.error` throws and the submission settles to Failed with
the engine's message.  And with two requests of aiddata unsettled at once, when
the first is rejected and the second then succeeds, the result is stored while
errors[V] still holds the message of the first. -/
theorem success_not_always_clean :
    (handleSubmit v8 "http://127.0.0.1:8000" AppState.initial
        (.response 200 (.ok .null))).errors.get .aiddata
      = some "Cannot read properties of null (reading 'error')" ∧
    (run controlEnabled v8 "http://127.0.0.1:8000"
        (overlappingSubmits ++
          [.settle 0 (.rejected "Failed to fetch"), .settle 1 (.response 200 (.ok exampleBody))])
        Sys.initial).map (fun σ => σ.app.errors.get .aiddata) = some (some "Failed to fetch") ∧
    (run controlEnabled v8 "http://127.0.0.1:8000"
        (overlappingSubmits ++
          [.settle 0 (.rejected "Failed to fetch"), .settle 1 (.response 200 (.ok exampleBody))])
        Sys.initial).map (fun σ => σ.app.predictions.get .aiddata) = some exampleBody := by
  refine ⟨rfl, rfl, rfl⟩

/-- C7 (as amended): for every submission whose response has a status outside
the success range, or a decoded body whose error field is a non-empty string,
whatever else the body contains, the settlement leaves the variant Failed
(errors[V] holds a non-empty message) and stores no result (it leaves the
results as they are), on whatever state it resumes; in every run in which each
submission and reset on a variant happens only when that variant has no
unsettled request, predictions[V] stays null. -/
theorem failure_stores_no_result (eng : Engine) (p : Pending) (status : Nat)
    (body : Except String JsVal)
    (h : resOk status = false ∨
      ∃ fields m, body = .ok (.obj fields) ∧ objGet fields "error" = some (.str m) ∧ m ≠ "") :
    (∀ s : AppState,
      (∃ message,
        (handleSubmitSettle eng p (.response status body) s).errors.get p.key = some message ∧
        message ≠ "") ∧
      (handleSubmitSettle eng p (.response status body) s).predictions = s.predictions) ∧
    (∀ (apiBaseUrl : String) (events : List Event) (σ : Sys) (i : Nat),
      run anyTime eng apiBaseUrl events Sys.initial = some σ →
      respectsOrder eng apiBaseUrl events Sys.initial = true →
      σ.pending[i]? = some p →
      (handleSubmitSettle eng p (.response status body) σ.app).predictions.get p.key
        = .null) := by
  obtain ⟨m, hm⟩ := tryBlock_failure eng status body h
  constructor
  · intro s
    have hw := (settle_writes_key eng p (.response status body) s).2 m hm
    exact ⟨⟨_, hw.1, fallback_ne_empty m⟩, hw.2⟩
  · intro apiBaseUrl events σ i hrun hord hp
    have hw := (settle_writes_key eng p (.response status body) σ.app).2 m hm
    rw [hw.2]
    exact (ordered_pending_cells_null eng apiBaseUrl events σ hrun hord i p hp).1

theorem failure_stores_no_result_witness :
    (handleSubmitSettle v8 (handleSubmitStart "http://127.0.0.1:8000" AppState.initial).2
      (.response 200 (.ok exampleBodyWithError))
      (handleSubmitStart "http://127.0.0.1:8000" AppState.initial).1).predictions.get
        (handleSubmitStart "http://127.0.0.1:8000" AppState.initial).2.key = .null :=
  (failure_stores_no_result v8 (handleSubmitStart "http://127.0.0.1:8000" AppState.initial).2
    200 (.ok exampleBodyWithError)
    (Or.inr ⟨_, "model unavailable", rfl, by rfl, by decide⟩)).2
    "http://127.0.0.1:8000" [.submit]
    ⟨(handleSubmitStart "http://127.0.0.1:8000" AppState.initial).1,
     [(handleSubmitStart "http://127.0.0.1:8000" AppState.initial).2]⟩ 0 rfl rfl rfl

/-- C7 (as stated) fails with two requests of aiddata unsettled at once: when
the first succeeds and the second then fails with status 500, the variant is
Failed while predictions[V] holds the result of the first, so it did not stay
null. -/
theorem failure_with_earlier_result :
    (run controlEnabled v8 "http://127.0.0.1:8000"
        (overlappingSubmits ++
          [.settle 0 (.response 200 (.ok exampleBody)),
           .settle 1 (.response 500 (.ok (.obj [("error", .str "model unavailable")])))])
        Sys.initial).map (fun σ => σ.app.errors.get .aiddata)
      = some (some "model unavailable") ∧
    (run controlEnabled v8 "http://127.0.0.1:8000"
        (overlappingSubmits ++
          [.settle 0 (.response 200 (.ok exampleBody)),
           .settle 1 (.response 500 (.ok (.obj [("error", .str "model unavailable")])))])
        Sys.initial).map (fun σ => σ.app.predictions.get .aiddata) = some exampleBody := by
  refine ⟨rfl, rfl⟩

/-- C9 (as amended): for every submission whose transport rejects with an error
carrying a non-empty message m, the settlement leaves the variant Failed with
errors[V] = m and stores no result, on whatever state it resumes; in every run
in which each submission and reset on a variant happens only when that variant
has no unsettled request, predictions[V] is null. -/
theorem rejection_stores_message (eng : Engine) (p : Pending) (m : String) (hm : m ≠ "") :
    (∀ s : AppState,
      (handleSubmitSettle eng p (.rejected m) s).errors.get p.key = some m ∧
      (handleSubmitSettle eng p (.rejected m) s).predictions = s.predictions) ∧
    (∀ (apiBaseUrl : String) (events : List Event) (σ : Sys) (i : Nat),
      run anyTime eng apiBaseUrl events Sys.initial = some σ →
      respectsOrder eng apiBaseUrl events Sys.initial = true →
      σ.pending[i]? = some p →
      (handleSubmitSettle eng p (.rejected m) σ.app).predictions.get p.key = .null) := by
  constructor
  · intro s
    have hw := (settle_writes_key eng p (.rejected m) s).2 m rfl
    refine ⟨?_, hw.2⟩
    rw [hw.1]
    simp [hm]
  · intro apiBaseUrl events σ i hrun hord hp
    have hw := (settle_writes_key eng p (.rejected m) σ.app).2 m rfl
    rw [hw.2]
    exact (ordered_pending_cells_null eng apiBaseUrl events σ hrun hord i p hp).1

theorem rejection_stores_message_witness :
    (handleSubmitSettle v8 (handleSubmitStart "http://127.0.0.1:8000" busyState).2
      (.rejected "Failed to fetch") busyState).errors.get
        (handleSubmitStart "http://127.0.0.1:8000" busyState).2.key = some "Failed to fetch" :=
  ((rejection_stores_message v8 (handleSubmitStart "http://127.0.0.1:8000" busyState).2
    "Failed to fetch" (by decide)).1 busyState).1

/-- C9 (as stated) fails with two requests of aiddata unsettled at once: when
the first succeeds and the second is then rejected, errors[V] is the message of
the rejection while predictions[V] holds the result of the first, not null. -/
theorem rejection_with_earlier_result :
    (run controlEnabled v8 "http://127.0.0.1:8000"
        (overlappingSubmits ++
          [.settle 0 (.response 200 (.ok exampleBody)), .settle 1 (.rejected "Failed to fetch")])
        Sys.initial).map (fun σ => σ.app.errors.get .aiddata) = some (some "Failed to fetch") ∧
    (run controlEnabled v8 "http://127.0.0.1:8000"
        (overlappingSubmits ++
          [.settle 0 (.response 200 (.ok exampleBody)), .settle 1 (.rejected "Failed to fetch")])
        Sys.initial).map (fun σ => σ.app.predictions.get .aiddata) = some exampleBody := by
  refine ⟨rfl, rfl⟩

/-- C27 (as amended): for every submission whose response body fails to decode,
with the decoder's exception message m (never empty: a SyntaxError or TypeError
of the engine), the settlement leaves the variant Failed with errors[V] = m and
stores no result, on whatever state it resumes and whatever the status: inside
the success range, and outside it in place of "HTTP " and the status.  In every
run in which each submission and reset on a variant happens only when that
variant has no unsettled request, predictions[V] is null. -/
theorem undecodable_body_fails (eng : Engine) (p : Pending) (status : Nat) (m : String)
    (hm : m ≠ "") :
    (∀ s : AppState,
      (handleSubmitSettle eng p (.response status (.error m)) s).errors.get p.key = some m ∧
      (handleSubmitSettle eng p (.response status (.error m)) s).predictions
        = s.predictions) ∧
    (∀ (apiBaseUrl : String) (events : List Event) (σ : Sys) (i : Nat),
      run anyTime eng apiBaseUrl events Sys.initial = some σ →
      respectsOrder eng apiBaseUrl events Sys.initial = true →
      σ.pending[i]? = some p →
      (handleSubmitSettle eng p (.response status (.error m)) σ.app).predictions.get p.key
        = .null) := by
  constructor
  · intro s
    have hw := (settle_writes_key eng p (.response status (.error m)) s).2 m rfl
    refine ⟨?_, hw.2⟩
    rw [hw.1]
    simp [hm]
  · intro apiBaseUrl events σ i hrun hord hp
    have hw := (settle_writes_key eng p (.response status (.error m)) σ.app).2 m rfl
    rw [hw.2]
    exact (ordered_pending_cells_null eng apiBaseUrl events σ hrun hord i p hp).1

theorem undecodable_body_fails_witness :
    (handleSubmitSettle v8 (handleSubmitStart "http://127.0.0.1:8000" busyState).2
      (.response 200 (.error "Unexpected end of JSON input")) busyState).errors.get
        (handleSubmitStart "http://127.0.0.1:8000" busyState).2.key
      = some "Unexpected end of JSON input" :=
  ((undecodable_body_fails v8 (handleSubmitStart "http://127.0.0.1:8000" busyState).2
    200 "Unexpected end of JSON input" (by decide)).1 busyState).1

/-- C27 (as stated) fails with two requests of aiddata unsettled at once: when
the first succeeds and the body of the second then fails to decode, errors[V]
is the decoder's message while predictions[V] holds the result of the first, so
a result is stored. -/
theorem undecodable_with_earlier_result :
    (run controlEnabled v8 "http://127.0.0.1:8000"
        (overlappingSubmits ++
          [.settle 0 (.response 200 (.ok exampleBody)),
           .settle 1 (.response 200 (.error "Unexpected end of JSON input"))])
        Sys.initial).map (fun σ => σ.app.errors.get .aiddata)
      = some (some "Unexpected end of JSON input") ∧
    (run controlEnabled v8 "http://127.0.0.1:8000"
        (overlappingSubmits ++
          [.settle 0 (.response 200 (.ok exampleBody)),
           .settle 1 (.response 200 (.error "Unexpected end of JSON input"))])
        Sys.initial).map (fun σ => σ.app.predictions.get .aiddata) = some exampleBody := by
  refine ⟨rfl, rfl⟩

/-! ## Strings without a leading digit -/

theorem isStrWhiteSpaceChar_of_mem (c : Char) (h : c ∈ whiteSpaceChars) :
    isStrWhiteSpaceChar c = true := by
  simp only [whiteSpaceChars, List.mem_cons, List.mem_singleton, List.not_mem_nil,
    or_false] at h
  rcases h with h | h | h | h | h | h | h | h | h | h | h | h | h | h | h | h | h | h | h |
    h | h | h | h | h | h <;> subst h <;> rfl

theorem char_eq_ofNat (c : Char) (n : Nat) (h : c.toNat = n) : c = Char.ofNat n := by
  rw [← h, Char.ofNat_toNat]

theorem mem_of_isStrWhiteSpaceChar (c : Char) (h : isStrWhiteSpaceChar c = true) :
    c ∈ whiteSpaceChars := by
  simp only [isStrWhiteSpaceChar, Bool.or_eq_true, Bool.and_eq_true, decide_eq_true_eq] at h
  have key : ∀ n, c.toNat = n → Char.ofNat n ∈ whiteSpaceChars → c ∈ whiteSpaceChars := by
    intro n hn hm
    rw [char_eq_ofNat c n hn]
    exact hm
  rcases h with ((((((((((((((h | h) | h) | h) | h) | h) | h) | h) | ⟨h1, h2⟩) | h) | h) | h) |
    h) | h) | h)
  all_goals first
    | exact key _ h (by decide)
    | (generalize hn : c.toNat = n at h1 h2
       interval_cases n <;> exact key _ hn (by decide))

theorem trimStart_append (ws tl : List Char) (h : ∀ c ∈ ws, c ∈ whiteSpaceChars) :
    trimStart (ws ++ tl) = trimStart tl := by
  induction ws with
  | nil => rfl
  | cons c rest ih =>
    have hc : isStrWhiteSpaceChar c = true :=
      isStrWhiteSpaceChar_of_mem c (h c (List.mem_cons_self _ _))
    simp only [List.cons_append, trimStart, hc, if_true]
    exact ih (fun d hd => h d (List.mem_cons_of_mem _ hd))

theorem trimStart_cons_not_ws (c : Char) (tl : List Char) (h : c ∉ whiteSpaceChars) :
    trimStart (c :: tl) = c :: tl := by
  have hc : isStrWhiteSpaceChar c = false := by
    cases hb : isStrWhiteSpaceChar c with
    | false => rfl
    | true => exact absurd (mem_of_isStrWhiteSpaceChar c hb) h
  simp [trimStart, hc]

theorem digitVal_not_digit (c : Char) (h : c ∉ decimalDigitChars) : digitVal 10 c = none := by
  have hnd : ¬ (48 ≤ c.toNat ∧ c.toNat ≤ 57) := by
    rintro ⟨h1, h2⟩
    apply h
    generalize hn : c.toNat = n at h1 h2
    rw [char_eq_ofNat c n hn]
    interval_cases n <;> decide
  unfold digitVal
  simp only [hnd, if_false]
  by_cases hl : 97 ≤ c.toNat ∧ c.toNat ≤ 122
  · have : ¬ (c.toNat - 87 < 10) := by omega
    simp [hl, this]
  · by_cases hu : 65 ≤ c.toNat ∧ c.toNat ≤ 90
    · have : ¬ (c.toNat - 55 < 10) := by omega
      simp [hl, hu, this]
    · simp [hl, hu]

theorem takeDigits_no_digit (rest : List Char)
    (h : ∀ c tl, rest = c :: tl → c ∉ decimalDigitChars) :
    (takeDigits 10 rest).1 = [] := by
  cases rest with
  | nil => rfl
  | cons c tl => simp [takeDigits, digitVal_not_digit c (h c tl rfl)]

theorem takeSign_cons_no_sign (c : Char) (tl : List Char) (hp : c ≠ '+') (hm : c ≠ '-') :
    takeSign (c :: tl) = (false, c :: tl) := by
  unfold takeSign
  split
  · rename_i h; cases h; exact absurd rfl hm
  · rename_i h; cases h; exact absurd rfl hp
  · rfl

/-- C21 (as amended): for every non-empty approval_fy string made of white
space, then at most one sign, then a rest that is empty or begins with a
character other than a decimal digit (and other than white space or a sign
when no sign came before it), IEG payload preparation yields a payload (it
cannot raise) whose approval_fy is NaN. -/
theorem ieg_payload_approval_fy_nan (form : FormState) (ws sgn rest : List Char)
    (hfy : objGet form "approval_fy" = some (.str (String.mk (ws ++ sgn ++ rest))))
    (hne : ws ++ sgn ++ rest ≠ [])
    (hws : ∀ c ∈ ws, c ∈ whiteSpaceChars)
    (hsgn : sgn = [] ∨ sgn = ['+'] ∨ sgn = ['-'])
    (hrest : ∀ c tl, rest = c :: tl →
      c ∉ decimalDigitChars ∧ (sgn = [] → c ∉ whiteSpaceChars ∧ c ≠ '+' ∧ c ≠ '-')) :
    objGet (preparePayload .ieg form) "approval_fy" = some (.num .nan) := by
  have hdig := takeDigits_no_digit rest (fun c tl h => (hrest c tl h).1)
  have hscan : (takeDigits 10 (takeSign (trimStart (ws ++ sgn ++ rest))).2).1 = [] := by
    rw [List.append_assoc, trimStart_append ws _ hws]
    rcases hsgn with hs | hs | hs
    · subst hs
      cases rest with
      | nil => rfl
      | cons c tl =>
        have hc := (hrest c tl rfl).2 rfl
        rw [List.nil_append, trimStart_cons_not_ws c tl hc.1,
          takeSign_cons_no_sign c tl hc.2.1 hc.2.2]
        exact hdig
    · subst hs
      have : trimStart (['+'] ++ rest) = '+' :: rest := rfl
      rw [this]
      exact hdig
    · subst hs
      have : trimStart (['-'] ++ rest) = '-' :: rest := rfl
      rw [this]
      exact hdig
  have hstr : String.mk (ws ++ sgn ++ rest) ≠ "" := by
    intro h
    exact hne (congrArg String.data h)
  rw [ieg_fy, hfy]
  simp only [FormVal.truthy, hstr, ne_eq, not_false_eq_true, decide_True, FormVal.toJsString]
  rw [parseInt_no_digit _ hscan]

theorem ieg_payload_approval_fy_nan_witness :
    objGet (preparePayload .ieg (objSet initialIegForm "approval_fy" (.str "FY2020")))
      "approval_fy" = some (.num .nan) ∧
    objGet (preparePayload .ieg (objSet initialIegForm "approval_fy" (.str " -x1")))
      "approval_fy" = some (.num .nan) :=
  ⟨ieg_payload_approval_fy_nan (objSet initialIegForm "approval_fy" (.str "FY2020"))
      [] [] ['F', 'Y', '2', '0', '2', '0'] (by decide) (by decide) (by decide) (Or.inl rfl)
      (by intro c tl h; cases h; decide),
   ieg_payload_approval_fy_nan (objSet initialIegForm "approval_fy" (.str " -x1"))
      [' '] ['-'] ['x', '1'] (by decide) (by decide) (by decide) (Or.inr (Or.inr rfl))
      (by intro c tl h; cases h; decide)⟩

/-! ## The text of a badge -/

/-- C28 (as amended): for every label and every value that is a string, the
badge shows the label, a colon and a space, and the value exactly as received;
the lookup with its fallback decides only the style of the span, so an
unrecognized string is shown verbatim and not as "on_time".  For a value that
is null, undefined or a boolean the badge shows the label, the colon and the
space, and nothing after them. -/
theorem badge_text_verbatim (eng : Engine) (label : String) :
    (∀ value : String,
      (∃ c, badgeColors eng (some (.str value)) = .ok c ∧
        RiskBadge eng label (some (.str value))
          = .ok (.el "div" []
              [.el "span" (styleOf c) [.text label, .text ": ", .text value]])) ∧
      (RiskBadge eng label (some (.str value))).map Html.textContent
        = .ok (label ++ ": " ++ value)) ∧
    (RiskBadge eng label (some .null)).map Html.textContent = .ok (label ++ ": ") ∧
    (RiskBadge eng label none).map Html.textContent = .ok (label ++ ": ") ∧
    (∀ b : Bool,
      (RiskBadge eng label (some (.bool b))).map Html.textContent = .ok (label ++ ": ")) := by
  have hnone : ∀ shown : Option JsVal, ∀ c, badgeColors eng shown = .ok c →
      renderChild shown = .ok [] →
      (RiskBadge eng label shown).map Html.textContent = .ok (label ++ ": ") := by
    intro shown c hb hr
    simp only [RiskBadge, hb, hr, Except.map, Html.textContent, Html.textContentAll]
    simp
  refine ⟨?_, ?_, ?_, ?_⟩
  · intro value
    have hb := badgeColors_str eng value
    constructor
    · refine ⟨_, hb, ?_⟩
      simp only [RiskBadge, hb, renderChild, renderValue]
    · simp only [RiskBadge, hb, renderChild, renderValue, Except.map, Html.textContent,
        Html.textContentAll]
      simp [String.append_assoc]
  · exact hnone (some .null) ⟨some "#dbeafe", some "#1e40af"⟩ rfl rfl
  · exact hnone none ⟨some "#dbeafe", some "#1e40af"⟩ rfl rfl
  · intro b
    cases b
    · exact hnone (some (.bool false)) ⟨some "#dbeafe", some "#1e40af"⟩ rfl rfl
    · exact hnone (some (.bool true)) ⟨some "#dbeafe", some "#1e40af"⟩ rfl rfl

/-- C28 (as stated) fails on values that are not strings: for the value true,
and likewise for null, the badge shows "IQR: " with nothing after it, not the
value as received. -/
theorem badge_text_drops_boolean :
    (RiskBadge v8 "IQR" (some (.bool true))).map Html.textContent = .ok "IQR: " ∧
    (RiskBadge v8 "IQR" (some .null)).map Html.textContent = .ok "IQR: " := by
  refine ⟨rfl, rfl⟩

end DelaySense
